import Mathlib

/-!
# slides_downloader: a shallow embedding of `slides_api.go`

The program exports a slide deck: one image per slide and one text file with
the speaker notes.  Everything outside the program (file system, standard
input, the OAuth server, the Slides service, the image host) is an `Env` of
result oracles; a run is the list of effects it performed (`Event`) together
with the way it ended (`Exit`).

Go pointers that may be nil are `Option`s, and dereferencing `none` ends the
run with `Exit.nilDeref`.  The loop index and the byte count of a download
are natural numbers: a slice index and an `int64` count never leave the range
of the machine integers.  `log.Fatalf` ends the run with `Exit.fatal`; results
that the program drops (`WriteString`, `Encode`) are recorded in the effect
and have no influence on what follows.
-/

namespace SlidesDownloader

/-! ## Data model (the fields of the Slides API types that the program reads) -/

/-- `slides.TextRun`. -/
structure TextRun where
  Content : String
  deriving DecidableEq, Repr

/-- `slides.TextElement`; `TextRun` is a pointer, nil for paragraph markers and auto text. -/
structure TextElement where
  TextRun : Option TextRun
  deriving DecidableEq, Repr

/-- `slides.TextContent`. -/
structure TextContent where
  TextElements : List TextElement
  deriving DecidableEq, Repr

/-- `slides.Shape`; `Text` is a pointer. -/
structure Shape where
  Text : Option TextContent
  deriving DecidableEq, Repr

/-- `slides.PageElement`; `Shape` is a pointer, nil for images, lines, tables, ... -/
structure PageElement where
  Shape : Option Shape
  deriving DecidableEq, Repr

/-- The notes page of a slide (a `slides.Page`, of which only `PageElements` is read). -/
structure NotesPage where
  PageElements : List PageElement
  deriving DecidableEq, Repr

/-- `slides.SlideProperties`; `NotesPage` is a pointer. -/
structure SlideProperties where
  NotesPage : Option NotesPage
  deriving DecidableEq, Repr

/-- `slides.Page` for a slide; `SlideProperties` is a pointer. -/
structure Page where
  ObjectId : String
  SlideProperties : Option SlideProperties
  deriving DecidableEq, Repr

/-- `slides.Presentation`. -/
structure Presentation where
  Slides : List Page
  deriving DecidableEq, Repr

/-- `slides.Thumbnail`. -/
structure Thumbnail where
  ContentUrl : String
  deriving DecidableEq, Repr

/-- `oauth2.Token`. -/
structure Token where
  AccessToken : String
  TokenType : String
  RefreshToken : String
  Expiry : Nat
  deriving DecidableEq, Repr

/-- `oauth2.Config`, reduced to what the program obtains from it: the
authorization URL returned by `AuthCodeURL("state-token", AccessTypeOffline)`. -/
structure Config where
  AuthCodeURL : String
  deriving DecidableEq, Repr

/-- The client returned by `config.Client(ctx, tok)`: bound to a token. -/
structure Client where
  config : Config
  tok : Token
  deriving DecidableEq, Repr

/-- An `error` value handed back by the operating system or a library call
(`os`, `io`, `net/http`, `oauth2`, the Slides client). -/
structure LibError where
  msg : String
  deriving DecidableEq, Repr

/-- A Go `error` value in the program: `lib` is a value passed on from a
library call, `errorf` is a value built by `fmt.Errorf` in this program. -/
inductive GoError where
  | lib (e : LibError)
  | errorf (msg : String)
  deriving DecidableEq, Repr

/-- The text `%v` prints for an error. -/
def GoError.msg : GoError → String
  | .lib e => e.msg
  | .errorf m => m

/-- The fields of `url.URL`. -/
structure URL where
  Scheme : String
  Opaque : String
  User : Option String
  Host : String
  Path : String
  RawPath : String
  OmitHost : Bool
  ForceQuery : Bool
  RawQuery : String
  Fragment : String
  RawFragment : String
  deriving DecidableEq, Repr

/-- The part of `http.Request` the redirect handler touches. -/
structure Request where
  Method : String
  URL : URL
  deriving DecidableEq, Repr

/-! ## Effects and runs -/

/-- One effect of the program on the outside world, in program order.
`ok` records whether the operating system reported success. -/
inductive Event where
  | print (s : String)
  | scan
  | readFile (name : String)
  | create (name : String) (ok : Bool)
  | writeString (name : String) (s : String) (ok : Bool)
  | encode (name : String) (tok : Token) (ok : Bool)
  | copy (name : String) (size : Nat) (ok : Bool)
  | exchange (code : String)
  | presentationsGet (id : String)
  | getThumbnail (id : String) (pageId : String)
  | httpGet (url : String)
  deriving DecidableEq, Repr

/-- How a run ends: normally, through `log.Fatalf` (exit status 1), or through
a run-time panic (nil pointer dereference, exit status 2). -/
inductive Exit where
  | fatal (msg : String)
  | nilDeref
  deriving DecidableEq, Repr

/-- A computation of the program: the effects performed so far and either a
value or the abort that stopped it. -/
structure Run (α : Type) where
  trace : List Event
  result : Except Exit α

/-- Sequencing: an abort stops everything after it. -/
def Run.bind {α β : Type} (r : Run α) (k : α → Run β) : Run β :=
  match r.result with
  | .error e => ⟨r.trace, .error e⟩
  | .ok a => ⟨r.trace ++ (k a).trace, (k a).result⟩

instance : Monad Run where
  pure a := ⟨[], .ok a⟩
  bind := Run.bind

/-- Perform one effect. -/
def emit (ev : Event) : Run Unit := ⟨[ev], .ok ()⟩

/-- `log.Fatalf`: report and exit with status 1. -/
def logFatalf {α : Type} (msg : String) : Run α := ⟨[], .error (.fatal msg)⟩

/-- A nil pointer dereference. -/
def nilPanic {α : Type} : Run α := ⟨[], .error .nilDeref⟩

/-- The process exit status of a run. -/
def exitCode {α : Type} (r : Run α) : Nat :=
  match r.result with
  | .ok _ => 0
  | .error (.fatal _) => 1
  | .error .nilDeref => 2

/-- The results the outside world gives to each call of the program.  The
calls made once per slide are keyed by the slide position `i` (0-based), the
notes writes also by their ordinal within the slide (0 is the header). -/
structure Env where
  readCredentials : Except LibError String
  configFromJSON : String → Except LibError Config
  openToken : Option LibError
  decodeToken : Except LibError Token
  scan : Except LibError String
  exchange : String → Except LibError Token
  openTokenForWrite : Option LibError
  encodeToken : Token → Option LibError
  slidesNew : Option LibError
  createNotes : Option LibError
  presentationsGet : String → Except LibError Presentation
  getThumbnail : Nat → String → String → Except LibError Thumbnail
  createImage : Nat → String → Option LibError
  httpGet : Nat → String → Option LibError
  copy : Nat → String → Nat × Option LibError
  writeString : Nat → Nat → String → Option LibError

/-! ## The program -/

/-- `tokenFromFile`: open the file, decode a token from it. -/
def tokenFromFile (env : Env) (file : String) : Run (Except LibError Token) := do
  emit (.readFile file)
  match env.openToken with
  | some err => pure (.error err)
  | none => pure env.decodeToken

/-- `getTokenFromWeb`: print the URL, read the code, exchange it. -/
def getTokenFromWeb (env : Env) (config : Config) : Run Token := do
  let authURL := config.AuthCodeURL
  emit (.print ("Go to the following link in your browser then type the " ++
    "authorization code: \n" ++ authURL ++ "\n"))
  emit .scan
  match env.scan with
  | .error err => logFatalf ("Unable to read authorization code: " ++ err.msg)
  | .ok authCode =>
    emit (.exchange authCode)
    match env.exchange authCode with
    | .error err => logFatalf ("Unable to retrieve token from web: " ++ err.msg)
    | .ok tok => pure tok

/-- `saveToken`: open the file for writing and encode the token into it; the
result of `Encode` is dropped. -/
def saveToken (env : Env) (path : String) (token : Token) : Run Unit := do
  emit (.print ("Saving credential file to: " ++ path ++ "\n"))
  match env.openTokenForWrite with
  | some err =>
    emit (.create path false)
    logFatalf ("Unable to cache oauth token: " ++ err.msg)
  | none =>
    emit (.create path true)
    emit (.encode path token (env.encodeToken token).isNone)

/-- `getClient`. -/
def getClient (env : Env) (config : Config) : Run Client := do
  let tokFile := "token.json"
  let r ← tokenFromFile env tokFile
  match r with
  | .error _ =>
    let tok ← getTokenFromWeb env config
    saveToken env tokFile tok
    pure ⟨config, tok⟩
  | .ok tok => pure ⟨config, tok⟩

/-- `grabImage`, for the slide at position `i`. -/
def grabImage (env : Env) (i : Nat) (imageUrl : String) (fileName : String) :
    Run (Option GoError) := do
  match env.createImage i fileName with
  | some err =>
    emit (.create fileName false)
    pure (some (.lib err))
  | none =>
    emit (.create fileName true)
    emit (.httpGet imageUrl)
    match env.httpGet i imageUrl with
    | some err => pure (some (.lib err))
    | none =>
      let (size, cerr) := env.copy i imageUrl
      emit (.copy fileName size cerr.isNone)
      match cerr with
      | some err => pure (some (.lib err))
      | none =>
        if size = 0 then
          pure (some (.errorf ("unexpected empty file from url " ++ imageUrl)))
        else
          pure none

/-- The `CheckRedirect` function of the download client: the request after
the call, and the returned error. -/
def checkRedirect (r : Request) (_via : List Request) : Request × Option GoError :=
  ({ r with URL := { r.URL with Opaque := r.URL.Path } }, none)

/-- `notes.WriteString(s)`, the `j`-th write of slide `i`; the result is dropped. -/
def notesWrite (env : Env) (i j : Nat) (s : String) : Run Unit :=
  emit (.writeString "notes.txt" s (env.writeString i j s).isNone)

/-- The loop over `element.Shape.Text.TextElements`; `j` is the ordinal of the
next notes write, returned updated. -/
def textElementsLoop (env : Env) (i : Nat) : Nat → List TextElement → Run Nat
  | j, [] => pure j
  | j, e :: es =>
    match e.TextRun with
    | some run => do
      notesWrite env i j (run.Content ++ "\n")
      textElementsLoop env i (j + 1) es
    | none => textElementsLoop env i j es

/-- The loop over the page elements of the notes page. -/
def pageElementsLoop (env : Env) (i : Nat) : Nat → List PageElement → Run Nat
  | j, [] => pure j
  | j, element :: rest =>
    match element.Shape with
    | none => nilPanic
    | some shape =>
      match shape.Text with
      | some text => do
        let j2 ← textElementsLoop env i j text.TextElements
        pageElementsLoop env i j2 rest
      | none => pageElementsLoop env i j rest

/-- The notes part of the loop body: `page.SlideProperties.NotesPage.PageElements`
is dereferenced, then walked. -/
def extractNotes (env : Env) (i : Nat) (page : Page) : Run Nat :=
  match page.SlideProperties with
  | none => nilPanic
  | some props =>
    match props.NotesPage with
    | none => nilPanic
    | some np => pageElementsLoop env i 1 np.PageElements

/-- `fmt.Sprintf("Slide %d:\n", i+1)`. -/
def slideHeader (i : Nat) : String := "Slide " ++ toString (i + 1) ++ ":\n"

/-- `fmt.Sprintf("image%d.jpg", i+1)`. -/
def imageName (i : Nat) : String := "image" ++ toString (i + 1) ++ ".jpg"

/-- The body of the loop over the slides, for the slide at position `i`. -/
def slideBody (env : Env) (presentationId : String) (i : Nat) (page : Page) : Run Unit := do
  emit (.print (slideHeader i))
  notesWrite env i 0 (slideHeader i)
  let pageId := page.ObjectId
  emit (.getThumbnail presentationId pageId)
  match env.getThumbnail i presentationId pageId with
  | .error err => logFatalf ("Couldn't create thumbnail: " ++ err.msg)
  | .ok thumb =>
    let gerr ← grabImage env i thumb.ContentUrl (imageName i)
    match gerr with
    | some err =>
      logFatalf ("Couldn't get image from " ++ thumb.ContentUrl ++ ": " ++ err.msg)
    | none =>
      let _ ← extractNotes env i page
      pure ()

/-- The loop `for i, page := range presentation.Slides`. -/
def slidesLoop (env : Env) (presentationId : String) : Nat → List Page → Run Unit
  | _, [] => pure ()
  | i, page :: rest => do
    slideBody env presentationId i page
    slidesLoop env presentationId (i + 1) rest

/-- The presentation id constant of `main`. -/
def presentationId : String := "1MXXXXXXXXXXXXXXXXXXXXXXXXXXXXXXXXXXXXXXXXXX"

/-- The last part of `main` (from the `Printf` of the slide count on): the
export loop over the slides of the fetched presentation. -/
def exportLoop (env : Env) (presentation : Presentation) : Run Unit := do
  emit (.print ("The presentation contains " ++
    toString presentation.Slides.length ++ " slides:\n"))
  slidesLoop env presentationId 0 presentation.Slides

/-- `main`. -/
def main (env : Env) : Run Unit := do
  let notesFile := "notes.txt"
  emit (.readFile "credentials.json")
  match env.readCredentials with
  | .error err => logFatalf ("Unable to read client secret file: " ++ err.msg)
  | .ok b =>
    match env.configFromJSON b with
    | .error err => logFatalf ("Unable to parse client secret file to config: " ++ err.msg)
    | .ok config =>
      let _client ← getClient env config
      match env.slidesNew with
      | some err => logFatalf ("Unable to retrieve Slides client: " ++ err.msg)
      | none =>
        match env.createNotes with
        | some err =>
          emit (.create notesFile false)
          logFatalf ("Couldn't create notes file at " ++ notesFile ++ ": " ++ err.msg)
        | none =>
          emit (.create notesFile true)
          emit (.presentationsGet presentationId)
          match env.presentationsGet presentationId with
          | .error err => logFatalf ("Unable to retrieve data from presentation: " ++ err.msg)
          | .ok presentation =>
            exportLoop env presentation

/-! ## Reading a trace -/

/-- Concatenation of strings, in order. -/
def concat : List String → String
  | [] => ""
  | s :: ss => s ++ concat ss

/-- The strings that were written successfully to `notes.txt`, in order. -/
def notesWritten (tr : List Event) : List String :=
  tr.filterMap fun ev =>
    match ev with
    | .writeString name s ok => if name = "notes.txt" ∧ ok = true then some s else none
    | _ => none

/-- The content of `notes.txt` after the run (each successful write appends
its string; a failed write is taken to append nothing). -/
def notesContent (tr : List Event) : String := concat (notesWritten tr)

/-- The files that were created, in order. -/
def createdFiles (tr : List Event) : List String :=
  tr.filterMap fun ev =>
    match ev with
    | .create name ok => if ok = true then some name else none
    | _ => none

/-- The page ids of the thumbnail requests that were made, in order. -/
def thumbnailCalls (tr : List Event) : List String :=
  tr.filterMap fun ev =>
    match ev with
    | .getThumbnail _ pageId => some pageId
    | _ => none

/-- The URLs of the image downloads that were started, in order. -/
def httpGets (tr : List Event) : List String :=
  tr.filterMap fun ev =>
    match ev with
    | .httpGet url => some url
    | _ => none

/-- Effects that belong to the steps of `main` before `notes.txt` is created:
reading the two input files, the interactive flow and saving the token. -/
def isSetupEvent : Event → Bool
  | .readFile _ => true
  | .print _ => true
  | .scan => true
  | .exchange _ => true
  | .create name _ => name = "token.json"
  | .encode name _ _ => name = "token.json"
  | _ => false

/-! ## The note lines of a slide, read off its notes page -/

/-- The lines of one text body: each text run's content followed by a newline. -/
def runLines : List TextElement → List String
  | [] => []
  | e :: es =>
    match e.TextRun with
    | some run => (run.Content ++ "\n") :: runLines es
    | none => runLines es

/-- The lines of the page elements, in document order; elements without a
shape or without a text body contribute nothing. -/
def noteLines : List PageElement → List String
  | [] => []
  | element :: rest =>
    match element.Shape with
    | some shape =>
      match shape.Text with
      | some text => runLines text.TextElements ++ noteLines rest
      | none => noteLines rest
    | none => noteLines rest

/-- Every page element has a shape. -/
def allShapes (els : List PageElement) : Bool := els.all fun el => el.Shape.isSome

/-- The page elements of the notes page, when slide properties and notes page
are both present. -/
def notesElements (page : Page) : Option (List PageElement) :=
  match page.SlideProperties with
  | some props =>
    match props.NotesPage with
    | some np => some np.PageElements
    | none => none
  | none => none

/-- The notes events of `lines`, written as writes number `j`, `j+1`, ... of slide `i`. -/
def writeEvents (env : Env) (i : Nat) : Nat → List String → List Event
  | _, [] => []
  | j, s :: ss =>
    .writeString "notes.txt" s (env.writeString i j s).isNone :: writeEvents env i (j + 1) ss

/-- The lines a completed body writes for the slide at position `i`: the
header, then the note lines. -/
def slideLines (i : Nat) (page : Page) : List String :=
  slideHeader i :: noteLines ((notesElements page).getD [])

/-- The lines of the slides `slides`, the first of which is at position `i`. -/
def deckLines : Nat → List Page → List String
  | _, [] => []
  | i, page :: rest => slideLines i page ++ deckLines (i + 1) rest

/-- What `main` does once `notes.txt` is created and the deck fetch is issued. -/
def afterFetch (env : Env) : Run Unit :=
  match env.presentationsGet presentationId with
  | .error err => logFatalf ("Unable to retrieve data from presentation: " ++ err.msg)
  | .ok presentation => exportLoop env presentation

/-- A failed creation of a file or a failed copy into a file. -/
def isFailedOutput : Event → Bool
  | .create _ ok => !ok
  | .copy _ _ ok => !ok
  | _ => false

/-- No effect in the trace is a failed creation or copy. -/
def noFailedOutput (tr : List Event) : Bool := tr.all fun ev => !isFailedOutput ev

/-- The run either has no failed creation or copy, or exactly one, which is
its last effect, and it ends through `log.Fatalf`. -/
def StopsAtFailedOutput {α : Type} (r : Run α) : Prop :=
  noFailedOutput r.trace = true ∨
    ∃ pre ev msg, r.trace = pre ++ [ev] ∧ noFailedOutput pre = true ∧
      isFailedOutput ev = true ∧ r.result = .error (.fatal msg)

/-- The effect with the outcome of a notes write or of the token encoding forgotten. -/
def forgetWrites : Event → Event
  | .writeString name s _ => .writeString name s true
  | .encode name tok _ => .encode name tok true
  | ev => ev

/-- A run with the outcomes of notes writes and token encoding forgotten. -/
def Run.forget {α : Type} (r : Run α) : Run α := ⟨r.trace.map forgetWrites, r.result⟩

/-- The environment with other outcomes for the notes writes and the token encoding. -/
def Env.withWrites (env : Env) (w : Nat → Nat → String → Option LibError)
    (c : Token → Option LibError) : Env :=
  { env with writeString := w, encodeToken := c }

/-- The contents of the text runs of one text body, in order. -/
def runContents : List TextElement → List String
  | [] => []
  | e :: es =>
    match e.TextRun with
    | some run => run.Content :: runContents es
    | none => runContents es

/-- The contents of the text runs of the page elements, in document order. -/
def textRuns : List PageElement → List String
  | [] => []
  | element :: rest =>
    match element.Shape with
    | some shape =>
      match shape.Text with
      | some text => runContents text.TextElements ++ textRuns rest
      | none => textRuns rest
    | none => textRuns rest

/-- The slide has the given notes, each line of which is held in one text
run: `none` when its notes page holds no text run, `some line` when it holds
exactly one text run, whose content is `line`.  A line that is split over
several text runs is not covered. -/
def HasNote (page : Page) (note : Option String) : Prop :=
  ∃ els, notesElements page = some els ∧ textRuns els = note.toList

/-- The expected `notes.txt` for slides with the given notes, the first at
position `i`: per slide the header, then the note line and a newline if any. -/
def expectedNotes : Nat → List (Option String) → String
  | _, [] => ""
  | i, note :: rest =>
    slideHeader i ++
      (match note with
        | some line => line ++ "\n"
        | none => "") ++ expectedNotes (i + 1) rest

/-! ## Sample decks and environments -/

/-- A page element that is a shape whose text body holds the given text runs. -/
def textShape (runs : List String) : PageElement :=
  ⟨some ⟨some ⟨runs.map fun c => ⟨some ⟨c⟩⟩⟩⟩⟩

/-- A slide with the given notes-page elements. -/
def slideWith (id : String) (els : List PageElement) : Page :=
  ⟨id, some ⟨some ⟨els⟩⟩⟩

/-- Three slides with notes "Note A", "Note B" and none. -/
def deckThree : Presentation :=
  ⟨[slideWith "p1" [textShape ["Note A"]], slideWith "p2" [textShape ["Note B"]],
    slideWith "p3" []]⟩

/-- One slide whose notes are one element with the text runs "Hello, " and "world". -/
def slideHello : Page := slideWith "p1" [textShape ["Hello, ", "world"]]

/-- Two slides; the notes page of the first holds an element that is not a shape. -/
def deckShapeless : Presentation :=
  ⟨[slideWith "p1" [⟨none⟩], slideWith "p2" []]⟩

/-- An environment in which a token is cached and every call succeeds;
every download has one byte. -/
def okEnv (deck : Presentation) : Env where
  readCredentials := .ok "credentials"
  configFromJSON := fun _ => .ok ⟨"https://accounts.example/auth"⟩
  openToken := none
  decodeToken := .ok ⟨"access", "Bearer", "refresh", 0⟩
  scan := .ok "code"
  exchange := fun _ => .ok ⟨"fresh", "Bearer", "refresh", 0⟩
  openTokenForWrite := none
  encodeToken := fun _ => none
  slidesNew := none
  createNotes := none
  presentationsGet := fun _ => .ok deck
  getThumbnail := fun _ _ pageId => .ok ⟨"https://img.example/" ++ pageId⟩
  createImage := fun _ _ => none
  httpGet := fun _ _ => none
  copy := fun _ _ => (1, none)
  writeString := fun _ _ _ => none

/-- No token is cached, and every notes write and the token encoding fail;
everything else succeeds. -/
def writeFailEnv : Env :=
  { okEnv ⟨[slideWith "p1" []]⟩ with
    openToken := some ⟨"open token.json: no such file or directory"⟩
    encodeToken := fun _ => some ⟨"write token.json: no space left on device"⟩
    writeString := fun _ _ _ => some ⟨"write notes.txt: no space left on device"⟩ }

/-- The deck fetch is refused. -/
def fetchFailEnv : Env :=
  { okEnv deckThree with
    presentationsGet := fun _ => .error ⟨"googleapi: Error 403: The caller does not have permission"⟩ }

/-- The thumbnail request of the second slide fails. -/
def thumbFailEnv : Env :=
  { okEnv deckThree with
    getThumbnail := fun i _ pageId =>
      if i = 1 then .error ⟨"googleapi: Error 500"⟩ else .ok ⟨"https://img.example/" ++ pageId⟩ }

/-- One slide whose one-line note "Hello, world" is held in two text runs. -/
def deckHello : Presentation := ⟨[slideHello]⟩

/-- The configuration used in the sample runs. -/
def sampleConfig : Config := ⟨"https://accounts.example/auth"⟩

/-- No token is cached and reading the authorization code fails. -/
def scanFailEnv : Env :=
  { okEnv deckThree with
    openToken := some ⟨"open token.json: no such file or directory"⟩
    scan := .error ⟨"unexpected newline"⟩ }

/-- A redirect request whose target was received pre-escaped: the path on the
wire was "/a%2Fb%3Dc/img.jpg", kept in `RawPath`; `Path` is its decoded form. -/
def redirectRequest : Request :=
  { Method := "GET"
    URL :=
      { Scheme := "https"
        Opaque := ""
        User := none
        Host := "img.example"
        Path := "/a/b=c/img.jpg"
        RawPath := "/a%2Fb%3Dc/img.jpg"
        OmitHost := false
        ForceQuery := false
        RawQuery := ""
        Fragment := ""
        RawFragment := "" } }

/-- The file `notes.txt` cannot be created. -/
def notesCreateFailEnv : Env :=
  { okEnv deckThree with createNotes := some ⟨"open notes.txt: permission denied"⟩ }

/-! ## Sequencing lemmas -/

@[simp] theorem run_pure_trace {α : Type} (a : α) : (pure a : Run α).trace = [] := rfl

@[simp] theorem run_pure_result {α : Type} (a : α) : (pure a : Run α).result = .ok a := rfl

@[simp] theorem run_bind_mk_ok {α β : Type} (t : List Event) (a : α) (k : α → Run β) :
    ((⟨t, .ok a⟩ : Run α) >>= k) = ⟨t ++ (k a).trace, (k a).result⟩ := rfl

@[simp] theorem run_bind_mk_error {α β : Type} (t : List Event) (e : Exit) (k : α → Run β) :
    ((⟨t, .error e⟩ : Run α) >>= k) = ⟨t, .error e⟩ := rfl

@[simp] theorem run_bind_emit {β : Type} (ev : Event) (k : Unit → Run β) :
    (emit ev >>= k) = ⟨ev :: (k ()).trace, (k ()).result⟩ := rfl

@[simp] theorem emit_trace (ev : Event) : (emit ev).trace = [ev] := rfl

@[simp] theorem emit_result (ev : Event) : (emit ev).result = .ok () := rfl

@[simp] theorem run_bind_pure {α β : Type} (a : α) (k : α → Run β) :
    ((pure a : Run α) >>= k) = k a := rfl

theorem run_bind_of_ok {α β : Type} (r : Run α) (a : α) (k : α → Run β)
    (h : r.result = .ok a) : (r >>= k) = ⟨r.trace ++ (k a).trace, (k a).result⟩ := by
  show Run.bind r k = _
  simp [Run.bind, h]

theorem run_bind_of_error {α β : Type} (r : Run α) (e : Exit) (k : α → Run β)
    (h : r.result = .error e) : (r >>= k) = ⟨r.trace, .error e⟩ := by
  show Run.bind r k = _
  simp [Run.bind, h]

/-! ## The notes walk -/

theorem textElementsLoop_eq (env : Env) (i : Nat) (es : List TextElement) (j : Nat) :
    textElementsLoop env i j es =
      ⟨writeEvents env i j (runLines es), .ok (j + (runLines es).length)⟩ := by
  induction es generalizing j with
  | nil => rfl
  | cons e es ih =>
    rcases hr : e.TextRun with _ | run
    · simp [textElementsLoop, runLines, hr, ih]
    · simp [textElementsLoop, runLines, hr, ih, notesWrite, writeEvents]
      omega

theorem writeEvents_append (env : Env) (i : Nat) (l1 l2 : List String) (j : Nat) :
    writeEvents env i j (l1 ++ l2) =
      writeEvents env i j l1 ++ writeEvents env i (j + l1.length) l2 := by
  induction l1 generalizing j with
  | nil => simp [writeEvents]
  | cons s ss ih =>
    have hlen : j + 1 + ss.length = j + (ss.length + 1) := by omega
    have h := ih (j + 1)
    rw [hlen] at h
    show _ :: writeEvents env i (j + 1) (ss ++ l2) = _ :: (_ ++ writeEvents env i (j + (ss.length + 1)) l2)
    rw [h]

theorem pageElementsLoop_of_allShapes (env : Env) (i : Nat) (els : List PageElement) (j : Nat)
    (h : allShapes els = true) :
    pageElementsLoop env i j els =
      ⟨writeEvents env i j (noteLines els), .ok (j + (noteLines els).length)⟩ := by
  induction els generalizing j with
  | nil => rfl
  | cons el els ih =>
    simp only [allShapes, List.all_cons, Bool.and_eq_true] at h
    have ih2 := fun j => ih j (by simpa [allShapes] using h.2)
    rcases hs : el.Shape with _ | shape
    · simp [hs] at h
    · rcases ht : shape.Text with _ | text
      · simp [pageElementsLoop, noteLines, hs, ht, ih2]
      · simp [pageElementsLoop, noteLines, hs, ht, ih2, textElementsLoop_eq,
          writeEvents_append]
        omega

theorem pageElementsLoop_of_missing_shape (env : Env) (i : Nat) (els : List PageElement)
    (j : Nat) (h : allShapes els = false) :
    (pageElementsLoop env i j els).result = .error .nilDeref := by
  induction els generalizing j with
  | nil => simp [allShapes] at h
  | cons el els ih =>
    rcases hs : el.Shape with _ | shape
    · simp [pageElementsLoop, hs, nilPanic]
    · have h2 : allShapes els = false := by
        simpa [allShapes, hs] using h
      rcases ht : shape.Text with _ | text
      · simp [pageElementsLoop, hs, ht, ih _ h2]
      · simp [pageElementsLoop, hs, ht, textElementsLoop_eq, ih _ h2]

/-! ## One slide -/

theorem grabImage_result_ok (env : Env) (i : Nat) (url file : String) :
    ∃ r, (grabImage env i url file).result = .ok r := by
  rcases h1 : env.createImage i file with _ | e1
  · rcases h2 : env.httpGet i url with _ | e2
    · rcases h3 : env.copy i url with ⟨size, _ | e3⟩
      · by_cases hs : size = 0 <;> simp [grabImage, h1, h2, h3, hs]
      · simp [grabImage, h1, h2, h3]
    · simp [grabImage, h1, h2]
  · simp [grabImage, h1]

theorem grabImage_none (env : Env) (i : Nat) (url file : String)
    (h : (grabImage env i url file).result = .ok none) :
    ∃ size, env.createImage i file = none ∧ env.httpGet i url = none ∧
      env.copy i url = (size + 1, none) ∧
      (grabImage env i url file).trace =
        [.create file true, .httpGet url, .copy file (size + 1) true] := by
  rcases h1 : env.createImage i file with _ | e1
  · rcases h2 : env.httpGet i url with _ | e2
    · rcases h3 : env.copy i url with ⟨size, _ | e3⟩
      · rcases size with _ | n
        · simp [grabImage, h1, h2, h3] at h
        · exact ⟨n, rfl, rfl, rfl, by simp [grabImage, h1, h2, h3]⟩
      · simp [grabImage, h1, h2, h3] at h
    · simp [grabImage, h1, h2] at h
  · simp [grabImage, h1] at h

theorem grabImage_projections (env : Env) (i : Nat) (url file : String) :
    notesWritten (grabImage env i url file).trace = [] ∧
    thumbnailCalls (grabImage env i url file).trace = [] ∧
    createdFiles (grabImage env i url file).trace =
      (if env.createImage i file = none then [file] else []) := by
  rcases h1 : env.createImage i file with _ | e1
  · rcases h2 : env.httpGet i url with _ | e2
    · rcases h3 : env.copy i url with ⟨size, _ | e3⟩
      · by_cases hs : size = 0 <;>
          simp [grabImage, h1, h2, h3, hs, notesWritten, thumbnailCalls, createdFiles]
      · simp [grabImage, h1, h2, h3, notesWritten, thumbnailCalls, createdFiles]
    · simp [grabImage, h1, h2, notesWritten, thumbnailCalls, createdFiles]
  · simp [grabImage, h1, notesWritten, thumbnailCalls, createdFiles]

theorem extractNotes_of_allShapes (env : Env) (i : Nat) (page : Page)
    (els : List PageElement) (h1 : notesElements page = some els)
    (h2 : allShapes els = true) :
    extractNotes env i page =
      ⟨writeEvents env i 1 (noteLines els), .ok (1 + (noteLines els).length)⟩ := by
  rcases hp : page.SlideProperties with _ | props
  · simp [notesElements, hp] at h1
  · rcases hn : props.NotesPage with _ | np
    · simp [notesElements, hp, hn] at h1
    · simp [notesElements, hp, hn] at h1
      subst h1
      simp [extractNotes, hp, hn, pageElementsLoop_of_allShapes env i _ 1 h2]

theorem extractNotes_ok (env : Env) (i : Nat) (page : Page) (n : Nat)
    (h : (extractNotes env i page).result = .ok n) :
    ∃ els, notesElements page = some els ∧ allShapes els = true := by
  rcases hp : page.SlideProperties with _ | props
  · simp [extractNotes, hp, nilPanic] at h
  · rcases hn : props.NotesPage with _ | np
    · simp [extractNotes, hp, hn, nilPanic] at h
    · refine ⟨np.PageElements, by simp [notesElements, hp, hn], ?_⟩
      by_contra hc
      have hf : allShapes np.PageElements = false := by simpa using hc
      have := pageElementsLoop_of_missing_shape env i np.PageElements 1 hf
      simp [extractNotes, hp, hn, this] at h

/-- What a slide body that completes has done. -/
theorem slideBody_ok (env : Env) (pid : String) (i : Nat) (page : Page)
    (h : (slideBody env pid i page).result = .ok ()) :
    ∃ thumb size els, env.getThumbnail i pid page.ObjectId = .ok thumb ∧
      env.createImage i (imageName i) = none ∧
      env.httpGet i thumb.ContentUrl = none ∧
      env.copy i thumb.ContentUrl = (size + 1, none) ∧
      notesElements page = some els ∧ allShapes els = true ∧
      (slideBody env pid i page).trace =
        [.print (slideHeader i),
         .writeString "notes.txt" (slideHeader i) (env.writeString i 0 (slideHeader i)).isNone,
         .getThumbnail pid page.ObjectId,
         .create (imageName i) true, .httpGet thumb.ContentUrl,
         .copy (imageName i) (size + 1) true] ++ writeEvents env i 1 (noteLines els) := by
  rcases ht : env.getThumbnail i pid page.ObjectId with e | thumb
  · simp [slideBody, notesWrite, ht, logFatalf] at h
  · obtain ⟨r, hr⟩ := grabImage_result_ok env i thumb.ContentUrl (imageName i)
    rcases r with _ | err
    · obtain ⟨size, hc, hg, hcp, htr⟩ := grabImage_none env i _ _ hr
      rcases he : (extractNotes env i page).result with e | n
      · simp [slideBody, notesWrite, ht, run_bind_of_ok _ _ _ hr, run_bind_of_error _ _ _ he] at h
      · obtain ⟨els, hels, hall⟩ := extractNotes_ok env i page n he
        refine ⟨thumb, size, els, rfl, hc, hg, hcp, hels, hall, ?_⟩
        simp [slideBody, notesWrite, ht, run_bind_of_ok _ _ _ hr, htr,
          extractNotes_of_allShapes env i page els hels hall]
    · simp [slideBody, notesWrite, ht, run_bind_of_ok _ _ _ hr, logFatalf] at h

/-! ## The loop over the slides -/

theorem notesWritten_append (a b : List Event) :
    notesWritten (a ++ b) = notesWritten a ++ notesWritten b := by
  simp [notesWritten]

theorem createdFiles_append (a b : List Event) :
    createdFiles (a ++ b) = createdFiles a ++ createdFiles b := by
  simp [createdFiles]

theorem thumbnailCalls_append (a b : List Event) :
    thumbnailCalls (a ++ b) = thumbnailCalls a ++ thumbnailCalls b := by
  simp [thumbnailCalls]

theorem writeEvents_projections (env : Env) (i : Nat) (lines : List String) (j : Nat) :
    createdFiles (writeEvents env i j lines) = [] ∧
    thumbnailCalls (writeEvents env i j lines) = [] := by
  induction lines generalizing j with
  | nil => simp [writeEvents, createdFiles, thumbnailCalls]
  | cons s ss ih =>
    have h := ih (j + 1)
    simp only [createdFiles, thumbnailCalls] at h
    simp [writeEvents, createdFiles, thumbnailCalls, h.1, h.2]

theorem notesWritten_writeEvents (env : Env) (i : Nat) (lines : List String) (j : Nat)
    (hw : ∀ n s, env.writeString i n s = none) :
    notesWritten (writeEvents env i j lines) = lines := by
  induction lines generalizing j with
  | nil => simp [writeEvents, notesWritten]
  | cons s ss ih =>
    have h := ih (j + 1)
    simp only [notesWritten] at h
    simp [writeEvents, notesWritten, hw, h]

theorem httpGets_append (a b : List Event) :
    httpGets (a ++ b) = httpGets a ++ httpGets b := by
  simp [httpGets]

theorem writeEvents_httpGets (env : Env) (i : Nat) (lines : List String) (j : Nat) :
    httpGets (writeEvents env i j lines) = [] := by
  induction lines generalizing j with
  | nil => simp [writeEvents, httpGets]
  | cons s ss ih =>
    have h := ih (j + 1)
    simp only [httpGets] at h
    simp [writeEvents, httpGets, h]

theorem grabImage_httpGets (env : Env) (i : Nat) (url file : String) :
    (httpGets (grabImage env i url file).trace).length ≤ 1 := by
  rcases h1 : env.createImage i file with _ | e1
  · rcases h2 : env.httpGet i url with _ | e2
    · rcases h3 : env.copy i url with ⟨size, _ | e3⟩
      · by_cases hs : size = 0 <;> simp [grabImage, h1, h2, h3, hs, httpGets]
      · simp [grabImage, h1, h2, h3, httpGets]
    · simp [grabImage, h1, h2, httpGets]
  · simp [grabImage, h1, httpGets]

theorem slidesLoop_cons_ok (env : Env) (pid : String) (i : Nat) (page : Page)
    (rest : List Page) (h : (slideBody env pid i page).result = .ok ()) :
    slidesLoop env pid i (page :: rest) =
      ⟨(slideBody env pid i page).trace ++ (slidesLoop env pid (i + 1) rest).trace,
        (slidesLoop env pid (i + 1) rest).result⟩ := by
  simp [slidesLoop, run_bind_of_ok _ _ _ h]

theorem slidesLoop_cons_error (env : Env) (pid : String) (i : Nat) (page : Page)
    (rest : List Page) (e : Exit) (h : (slideBody env pid i page).result = .error e) :
    slidesLoop env pid i (page :: rest) = ⟨(slideBody env pid i page).trace, .error e⟩ := by
  simp [slidesLoop, run_bind_of_error _ _ _ h]

/-- A loop that completes has made one thumbnail request and one image file
per slide, in order, and (when the writes go through) written the lines of
every slide, in order. -/
theorem slidesLoop_ok (env : Env) (pid : String) (slides : List Page) (i : Nat)
    (h : (slidesLoop env pid i slides).result = .ok ()) :
    thumbnailCalls (slidesLoop env pid i slides).trace = slides.map Page.ObjectId ∧
    createdFiles (slidesLoop env pid i slides).trace =
      (List.range' i slides.length).map imageName ∧
    ((∀ k, i ≤ k → k < i + slides.length → ∀ n s, env.writeString k n s = none) →
      notesWritten (slidesLoop env pid i slides).trace = deckLines i slides) := by
  induction slides generalizing i with
  | nil => simp [slidesLoop, thumbnailCalls, createdFiles, notesWritten, deckLines]
  | cons page rest ih =>
    rcases hb : (slideBody env pid i page).result with e | u
    · rw [slidesLoop_cons_error env pid i page rest e hb] at h
      simp at h
    · rw [slidesLoop_cons_ok env pid i page rest hb] at h ⊢
      obtain ⟨thumb, size, els, -, -, -, -, hels, -, htr⟩ := slideBody_ok env pid i page hb
      obtain ⟨ih1, ih2, ih3⟩ := ih (i + 1) h
      have hp := writeEvents_projections env i (noteLines els) 1
      refine ⟨?_, ?_, ?_⟩
      · rw [thumbnailCalls_append, ih1, htr, thumbnailCalls_append, hp.2]
        simp [thumbnailCalls]
      · rw [createdFiles_append, ih2, htr, createdFiles_append, hp.1]
        simp [createdFiles, List.range'_succ]
      · intro hw
        have hwi : ∀ n s, env.writeString i n s = none :=
          hw i (Nat.le_refl i) (by simp)
        have hwr : ∀ k, i + 1 ≤ k → k < i + 1 + rest.length →
            ∀ n s, env.writeString k n s = none := by
          intro k h1 h2
          exact hw k (by omega) (by simp; omega)
        rw [notesWritten_append, ih3 hwr, htr, notesWritten_append,
          notesWritten_writeEvents env i _ 1 hwi]
        simp [notesWritten, hwi, deckLines, slideLines, hels]

/-- A loop that completes has started one image download per slide. -/
theorem slidesLoop_ok_httpGets (env : Env) (pid : String) (slides : List Page) (i : Nat)
    (h : (slidesLoop env pid i slides).result = .ok ()) :
    (httpGets (slidesLoop env pid i slides).trace).length = slides.length := by
  induction slides generalizing i with
  | nil => simp [slidesLoop, httpGets]
  | cons page rest ih =>
    rcases hb : (slideBody env pid i page).result with e | u
    · rw [slidesLoop_cons_error env pid i page rest e hb] at h
      simp at h
    · rw [slidesLoop_cons_ok env pid i page rest hb] at h ⊢
      obtain ⟨thumb, size, els, -, -, -, -, -, -, htr⟩ := slideBody_ok env pid i page hb
      rw [httpGets_append, htr, httpGets_append, writeEvents_httpGets, List.length_append,
        ih (i + 1) h]
      simp [httpGets]
      omega

/-! ## The steps of `main` before the loop -/

theorem getClient_setup (env : Env) (config : Config) :
    (getClient env config).trace.all isSetupEvent = true := by
  rcases h1 : env.openToken with _ | e1
  · rcases h2 : env.decodeToken with e2 | tok
    all_goals
      rcases h3 : env.scan with e3 | code
      · simp [getClient, tokenFromFile, getTokenFromWeb, saveToken, h1, h2, h3, logFatalf,
          isSetupEvent]
      · rcases h4 : env.exchange code with e4 | tok2
        · simp [getClient, tokenFromFile, getTokenFromWeb, saveToken, h1, h2, h3, h4,
            logFatalf, isSetupEvent]
        · rcases h5 : env.openTokenForWrite with _ | e5 <;>
            simp [getClient, tokenFromFile, getTokenFromWeb, saveToken, h1, h2, h3, h4, h5,
              logFatalf, isSetupEvent]
  · rcases h3 : env.scan with e3 | code
    · simp [getClient, tokenFromFile, getTokenFromWeb, saveToken, h1, h3, logFatalf,
        isSetupEvent]
    · rcases h4 : env.exchange code with e4 | tok2
      · simp [getClient, tokenFromFile, getTokenFromWeb, saveToken, h1, h3, h4,
          logFatalf, isSetupEvent]
      · rcases h5 : env.openTokenForWrite with _ | e5 <;>
          simp [getClient, tokenFromFile, getTokenFromWeb, saveToken, h1, h3, h4, h5,
            logFatalf, isSetupEvent]

theorem not_mem_of_setup (tr : List Event) (h : tr.all isSetupEvent = true) (id : String) :
    Event.presentationsGet id ∉ tr := by
  intro hm
  have := List.all_eq_true.mp h _ hm
  simp [isSetupEvent] at this

/-- A run of `main` that issues the deck fetch consists of setup effects, the
creation of `notes.txt`, the fetch, and what follows the fetch. -/
theorem main_reached (env : Env)
    (h : Event.presentationsGet presentationId ∈ (main env).trace) :
    ∃ setup, setup.all isSetupEvent = true ∧
      main env = ⟨setup ++ [.create "notes.txt" true, .presentationsGet presentationId] ++
        (afterFetch env).trace, (afterFetch env).result⟩ := by
  rcases h1 : env.readCredentials with e1 | b
  · simp [main, h1, logFatalf] at h
  · rcases h2 : env.configFromJSON b with e2 | config
    · simp [main, h1, h2, logFatalf] at h
    · have hs := getClient_setup env config
      have hn := not_mem_of_setup _ hs presentationId
      rcases h3 : (getClient env config).result with e3 | client
      · simp [main, h1, h2, run_bind_of_error _ _ _ h3, hn] at h
      · rcases h4 : env.slidesNew with _ | e4
        · rcases h5 : env.createNotes with _ | e5
          · refine ⟨.readFile "credentials.json" :: (getClient env config).trace, ?_, ?_⟩
            · simpa [isSetupEvent] using hs
            · rcases h6 : env.presentationsGet presentationId with e6 | deck <;>
                simp [main, h1, h2, run_bind_of_ok _ _ _ h3, h4, h5, h6, afterFetch]
          · simp [main, h1, h2, run_bind_of_ok _ _ _ h3, h4, h5, hn, logFatalf] at h
        · simp [main, h1, h2, run_bind_of_ok _ _ _ h3, h4, hn, logFatalf] at h

/-! ## Failed file creations and copies end the run -/

theorem stops_bind {α β : Type} (r : Run α) (k : α → Run β)
    (hr : StopsAtFailedOutput r) (hk : ∀ a, StopsAtFailedOutput (k a)) :
    StopsAtFailedOutput (r >>= k) := by
  rcases hres : r.result with e | a
  · rw [run_bind_of_error r e k hres]
    rcases hr with h | ⟨pre, ev, msg, h1, h2, h3, h4⟩
    · exact Or.inl h
    · exact Or.inr ⟨pre, ev, msg, h1, h2, h3, by simpa [hres] using h4⟩
  · rw [run_bind_of_ok r a k hres]
    rcases hr with h | ⟨pre, ev, msg, h1, h2, h3, h4⟩
    · rcases hk a with h5 | ⟨pre, ev, msg, h1, h2, h3, h4⟩
      · left
        simp only [noFailedOutput, List.all_append, Bool.and_eq_true] at h h5 ⊢
        exact ⟨h, h5⟩
      · right
        refine ⟨r.trace ++ pre, ev, msg, by simp [h1], ?_, h3, h4⟩
        simp only [noFailedOutput, List.all_append, Bool.and_eq_true] at h h2 ⊢
        exact ⟨h, h2⟩
    · rw [hres] at h4
      simp at h4

theorem noFailedOutput_cons (ev : Event) (tr : List Event) :
    noFailedOutput (ev :: tr) = (!isFailedOutput ev && noFailedOutput tr) := rfl

theorem noFailedOutput_append (a b : List Event) :
    noFailedOutput (a ++ b) = (noFailedOutput a && noFailedOutput b) := by
  simp [noFailedOutput]

theorem writeEvents_clean (env : Env) (i : Nat) (lines : List String) (j : Nat) :
    noFailedOutput (writeEvents env i j lines) = true := by
  induction lines generalizing j with
  | nil => rfl
  | cons s ss ih =>
    simp [writeEvents, noFailedOutput_cons, isFailedOutput, ih (j + 1)]

theorem pageElementsLoop_clean (env : Env) (i : Nat) (els : List PageElement) (j : Nat) :
    noFailedOutput (pageElementsLoop env i j els).trace = true := by
  induction els generalizing j with
  | nil => rfl
  | cons el els ih =>
    rcases hs : el.Shape with _ | shape
    · simp [pageElementsLoop, hs, nilPanic, noFailedOutput]
    · rcases ht : shape.Text with _ | text
      · simpa [pageElementsLoop, hs, ht] using ih j
      · simp [pageElementsLoop, hs, ht, textElementsLoop_eq, noFailedOutput_append,
          writeEvents_clean, ih]

theorem extractNotes_clean (env : Env) (i : Nat) (page : Page) :
    noFailedOutput (extractNotes env i page).trace = true := by
  rcases hp : page.SlideProperties with _ | props
  · simp [extractNotes, hp, nilPanic, noFailedOutput]
  · rcases hn : props.NotesPage with _ | np
    · simp [extractNotes, hp, hn, nilPanic, noFailedOutput]
    · simpa [extractNotes, hp, hn] using pageElementsLoop_clean env i np.PageElements 1

theorem slideBody_stops (env : Env) (pid : String) (i : Nat) (page : Page) :
    StopsAtFailedOutput (slideBody env pid i page) := by
  rcases ht : env.getThumbnail i pid page.ObjectId with e | thumb
  · left
    simp [slideBody, notesWrite, ht, logFatalf, noFailedOutput, isFailedOutput]
  · rcases h1 : env.createImage i (imageName i) with _ | e1
    · rcases h2 : env.httpGet i thumb.ContentUrl with _ | e2
      · rcases h3 : env.copy i thumb.ContentUrl with ⟨size, _ | e3⟩
        · by_cases hz : size = 0
          · left
            simp [slideBody, notesWrite, ht, grabImage, h1, h2, h3, hz, logFatalf,
              noFailedOutput, isFailedOutput]
          · left
            have hc := extractNotes_clean env i page
            rcases he : (extractNotes env i page).result with e | n
            · simp [slideBody, notesWrite, ht, grabImage, h1, h2, h3, hz,
                run_bind_of_error _ _ _ he, noFailedOutput_cons, isFailedOutput, hc]
            · simp [slideBody, notesWrite, ht, grabImage, h1, h2, h3, hz,
                run_bind_of_ok _ _ _ he, noFailedOutput_cons, noFailedOutput_append,
                isFailedOutput, hc]
        · right
          refine ⟨[.print (slideHeader i),
            .writeString "notes.txt" (slideHeader i) (env.writeString i 0 (slideHeader i)).isNone,
            .getThumbnail pid page.ObjectId, .create (imageName i) true,
            .httpGet thumb.ContentUrl], .copy (imageName i) size false,
            "Couldn't get image from " ++ thumb.ContentUrl ++ ": " ++ e3.msg, ?_, ?_, ?_, ?_⟩ <;>
            simp [slideBody, notesWrite, ht, grabImage, h1, h2, h3, logFatalf,
              noFailedOutput, isFailedOutput, GoError.msg]
      · left
        simp [slideBody, notesWrite, ht, grabImage, h1, h2, logFatalf, noFailedOutput,
          isFailedOutput]
    · right
      refine ⟨[.print (slideHeader i),
        .writeString "notes.txt" (slideHeader i) (env.writeString i 0 (slideHeader i)).isNone,
        .getThumbnail pid page.ObjectId], .create (imageName i) false,
        "Couldn't get image from " ++ thumb.ContentUrl ++ ": " ++ e1.msg, ?_, ?_, ?_, ?_⟩ <;>
        simp [slideBody, notesWrite, ht, grabImage, h1, logFatalf, noFailedOutput,
          isFailedOutput, GoError.msg]

theorem slidesLoop_stops (env : Env) (pid : String) (slides : List Page) (i : Nat) :
    StopsAtFailedOutput (slidesLoop env pid i slides) := by
  induction slides generalizing i with
  | nil => exact Or.inl rfl
  | cons page rest ih =>
    exact stops_bind _ _ (slideBody_stops env pid i page) (fun _ => ih (i + 1))

theorem saveToken_stops (env : Env) (path : String) (tok : Token) :
    StopsAtFailedOutput (saveToken env path tok) := by
  rcases h : env.openTokenForWrite with _ | e
  · left
    simp [saveToken, h, noFailedOutput, isFailedOutput]
  · right
    exact ⟨[.print ("Saving credential file to: " ++ path ++ "\n")], .create path false,
      "Unable to cache oauth token: " ++ e.msg, by simp [saveToken, h, logFatalf],
      by simp [noFailedOutput, isFailedOutput], by simp [isFailedOutput],
      by simp [saveToken, h, logFatalf]⟩

theorem getTokenFromWeb_clean (env : Env) (config : Config) :
    noFailedOutput (getTokenFromWeb env config).trace = true := by
  rcases h3 : env.scan with e3 | code
  · simp [getTokenFromWeb, h3, logFatalf, noFailedOutput, isFailedOutput]
  · rcases h4 : env.exchange code with e4 | tok2 <;>
      simp [getTokenFromWeb, h3, h4, logFatalf, noFailedOutput, isFailedOutput]

theorem getClient_stops (env : Env) (config : Config) :
    StopsAtFailedOutput (getClient env config) := by
  unfold getClient
  refine stops_bind _ _ (Or.inl ?_) ?_
  · rcases h1 : env.openToken with _ | e1 <;>
      simp [tokenFromFile, h1, noFailedOutput, isFailedOutput]
  · intro r
    rcases r with e | tok
    · refine stops_bind _ _ (Or.inl (getTokenFromWeb_clean env config)) ?_
      intro tok
      exact stops_bind _ _ (saveToken_stops env _ tok) (fun _ => Or.inl rfl)
    · exact Or.inl rfl

theorem main_stops (env : Env) : StopsAtFailedOutput (main env) := by
  unfold main
  refine stops_bind _ _ (Or.inl (by simp [noFailedOutput, isFailedOutput])) ?_
  intro _
  rcases h1 : env.readCredentials with e1 | b
  · exact Or.inl rfl
  · dsimp only
    rcases h2 : env.configFromJSON b with e2 | config
    · exact Or.inl rfl
    · dsimp only
      refine stops_bind _ _ (getClient_stops env config) ?_
      intro _
      rcases h4 : env.slidesNew with _ | e4
      · dsimp only
        rcases h5 : env.createNotes with _ | e5
        · refine stops_bind _ _ (Or.inl (by simp [noFailedOutput, isFailedOutput])) ?_
          intro _
          refine stops_bind _ _ (Or.inl (by simp [noFailedOutput, isFailedOutput])) ?_
          intro _
          rcases h6 : env.presentationsGet presentationId with e6 | deck
          · exact Or.inl rfl
          · exact stops_bind _ _ (Or.inl (by simp [noFailedOutput, isFailedOutput]))
              (fun _ => slidesLoop_stops env presentationId deck.Slides 0)
        · right
          exact ⟨[], .create "notes.txt" false,
            "Couldn't create notes file at " ++ "notes.txt" ++ ": " ++ e5.msg,
            by simp [logFatalf], rfl, rfl, by simp [logFatalf]⟩
      · exact Or.inl rfl

/-! ## The outcome of a notes write or of the token encoding is never looked at -/

theorem forget_bind_congr {α β : Type} (r1 r2 : Run α) (k1 k2 : α → Run β)
    (hr : r1.forget = r2.forget) (hk : ∀ a, (k1 a).forget = (k2 a).forget) :
    (r1 >>= k1).forget = (r2 >>= k2).forget := by
  simp only [Run.forget, Run.mk.injEq] at hr hk
  rcases h1 : r1.result with e | a
  · have h2 : r2.result = .error e := by rw [← hr.2, h1]
    rw [run_bind_of_error r1 e k1 h1, run_bind_of_error r2 e k2 h2]
    simp [Run.forget, hr.1]
  · have h2 : r2.result = .ok a := by rw [← hr.2, h1]
    rw [run_bind_of_ok r1 a k1 h1, run_bind_of_ok r2 a k2 h2]
    simp [Run.forget, hr.1, (hk a).1, (hk a).2]

theorem writeEvents_forget (env env2 : Env) (i : Nat) (lines : List String) (j : Nat) :
    (writeEvents env2 i j lines).map forgetWrites =
      (writeEvents env i j lines).map forgetWrites := by
  induction lines generalizing j with
  | nil => rfl
  | cons s ss ih => simp [writeEvents, forgetWrites, ih (j + 1)]

theorem pageElementsLoop_forget (env env2 : Env) (i : Nat) (els : List PageElement) (j : Nat) :
    (pageElementsLoop env2 i j els).forget = (pageElementsLoop env i j els).forget := by
  induction els generalizing j with
  | nil => rfl
  | cons el els ih =>
    rcases hs : el.Shape with _ | shape
    · simp [pageElementsLoop, hs]
    · rcases ht : shape.Text with _ | text
      · simpa [pageElementsLoop, hs, ht] using ih j
      · simp only [pageElementsLoop, hs, ht]
        refine forget_bind_congr _ _ _ _ ?_ (fun a => ih a)
        simp [textElementsLoop_eq, Run.forget, writeEvents_forget env env2]

theorem extractNotes_forget (env env2 : Env) (i : Nat) (page : Page) :
    (extractNotes env2 i page).forget = (extractNotes env i page).forget := by
  rcases hp : page.SlideProperties with _ | props
  · simp [extractNotes, hp]
  · rcases hn : props.NotesPage with _ | np
    · simp [extractNotes, hp, hn]
    · simpa [extractNotes, hp, hn] using pageElementsLoop_forget env env2 i np.PageElements 1

theorem slideBody_forget (env : Env) (w : Nat → Nat → String → Option LibError)
    (c : Token → Option LibError) (pid : String) (i : Nat) (page : Page) :
    (slideBody (env.withWrites w c) pid i page).forget = (slideBody env pid i page).forget := by
  unfold slideBody
  refine forget_bind_congr _ _ _ _ rfl (fun _ => ?_)
  refine forget_bind_congr _ _ _ _ (by simp [notesWrite, Run.forget, forgetWrites]) (fun _ => ?_)
  refine forget_bind_congr _ _ _ _ rfl (fun _ => ?_)
  show (match env.getThumbnail i pid page.ObjectId with
    | .error err => logFatalf ("Couldn't create thumbnail: " ++ err.msg)
    | .ok thumb => _).forget = _
  rcases ht : env.getThumbnail i pid page.ObjectId with e | thumb
  · rfl
  · dsimp only
    refine forget_bind_congr _ _ _ _ rfl (fun r => ?_)
    rcases r with _ | err
    · exact forget_bind_congr _ _ _ _ (extractNotes_forget env _ i page) (fun _ => rfl)
    · rfl

theorem slidesLoop_forget (env : Env) (w : Nat → Nat → String → Option LibError)
    (c : Token → Option LibError) (pid : String) (slides : List Page) (i : Nat) :
    (slidesLoop (env.withWrites w c) pid i slides).forget =
      (slidesLoop env pid i slides).forget := by
  induction slides generalizing i with
  | nil => rfl
  | cons page rest ih =>
    exact forget_bind_congr _ _ _ _ (slideBody_forget env w c pid i page) (fun _ => ih (i + 1))

theorem saveToken_forget (env : Env) (w : Nat → Nat → String → Option LibError)
    (c : Token → Option LibError) (path : String) (tok : Token) :
    (saveToken (env.withWrites w c) path tok).forget = (saveToken env path tok).forget := by
  rcases h : env.openTokenForWrite with _ | e
  · simp [saveToken, Env.withWrites, h, Run.forget, forgetWrites]
  · simp [saveToken, Env.withWrites, h, Run.forget, forgetWrites]

theorem getClient_forget (env : Env) (w : Nat → Nat → String → Option LibError)
    (c : Token → Option LibError) (config : Config) :
    (getClient (env.withWrites w c) config).forget = (getClient env config).forget := by
  unfold getClient
  refine forget_bind_congr _ _ _ _ rfl (fun r => ?_)
  rcases r with e | tok
  · refine forget_bind_congr _ _ _ _ rfl (fun tok => ?_)
    exact forget_bind_congr _ _ _ _ (saveToken_forget env w c _ tok) (fun _ => rfl)
  · rfl

theorem main_forget (env : Env) (w : Nat → Nat → String → Option LibError)
    (c : Token → Option LibError) :
    (main (env.withWrites w c)).forget = (main env).forget := by
  unfold main
  refine forget_bind_congr _ _ _ _ rfl (fun _ => ?_)
  show (match env.readCredentials with
    | .error err => logFatalf ("Unable to read client secret file: " ++ err.msg)
    | .ok b => _).forget = _
  rcases h1 : env.readCredentials with e1 | b
  · rfl
  · dsimp only
    show (match env.configFromJSON b with
      | .error err => logFatalf ("Unable to parse client secret file to config: " ++ err.msg)
      | .ok config => _).forget = _
    rcases h2 : env.configFromJSON b with e2 | config
    · rfl
    · dsimp only
      refine forget_bind_congr _ _ _ _ (getClient_forget env w c config) (fun _ => ?_)
      show (match env.slidesNew with
        | some err => logFatalf ("Unable to retrieve Slides client: " ++ err.msg)
        | none => _).forget = _
      rcases h4 : env.slidesNew with _ | e4
      · dsimp only
        show Run.forget (match env.createNotes with
          | some err => (_ : Run Unit)
          | none => _) = _
        rcases h5 : env.createNotes with _ | e5
        · dsimp only
          refine forget_bind_congr _ _ _ _ rfl (fun _ => ?_)
          refine forget_bind_congr _ _ _ _ rfl (fun _ => ?_)
          show (match env.presentationsGet presentationId with
            | .error err => logFatalf ("Unable to retrieve data from presentation: " ++ err.msg)
            | .ok presentation => _).forget = _
          rcases h6 : env.presentationsGet presentationId with e6 | deck
          · rfl
          · dsimp only
            exact forget_bind_congr _ _ _ _ rfl
              (fun _ => slidesLoop_forget env w c presentationId deck.Slides 0)
        · rfl
      · rfl

/-! ## Runs of `main` that reach the loop -/

theorem setup_projections (tr : List Event) (h : tr.all isSetupEvent = true) :
    notesWritten tr = [] ∧ thumbnailCalls tr = [] ∧ httpGets tr = [] ∧
    (∀ f ∈ createdFiles tr, f = "token.json") ∧
    (∀ name s ok, Event.writeString name s ok ∉ tr) := by
  have hall : ∀ ev ∈ tr, isSetupEvent ev = true := List.all_eq_true.mp h
  refine ⟨?_, ?_, ?_, ?_, ?_⟩
  · simp only [notesWritten, List.filterMap_eq_nil_iff]
    intro ev hev
    have := hall ev hev
    cases ev <;> simp [isSetupEvent] at this ⊢
  · simp only [thumbnailCalls, List.filterMap_eq_nil_iff]
    intro ev hev
    have := hall ev hev
    cases ev <;> simp [isSetupEvent] at this ⊢
  · simp only [httpGets, List.filterMap_eq_nil_iff]
    intro ev hev
    have := hall ev hev
    cases ev <;> simp [isSetupEvent] at this ⊢
  · intro f hf
    simp only [createdFiles, List.mem_filterMap] at hf
    obtain ⟨ev, hev, hfe⟩ := hf
    have := hall ev hev
    cases ev <;> simp [isSetupEvent] at this hfe
    rw [← hfe.2, this]
  · intro name s ok hmem
    have := hall _ hmem
    simp [isSetupEvent] at this

theorem concat_append (a b : List String) : concat (a ++ b) = concat a ++ concat b := by
  induction a with
  | nil => simp [concat]
  | cons s ss ih => simp [concat, ih, String.append_assoc]

theorem deckLines_append (pre rest : List Page) (i : Nat) :
    deckLines i (pre ++ rest) = deckLines i pre ++ deckLines (i + pre.length) rest := by
  induction pre generalizing i with
  | nil => simp [deckLines]
  | cons p ps ih =>
    have hlen : i + 1 + ps.length = i + (ps.length + 1) := by omega
    simp [deckLines, ih (i + 1), hlen]

theorem main_ok_reached (env : Env) (h : (main env).result = .ok ()) :
    Event.presentationsGet presentationId ∈ (main env).trace := by
  rcases h1 : env.readCredentials with e1 | b
  · simp [main, h1, logFatalf] at h
  · rcases h2 : env.configFromJSON b with e2 | config
    · simp [main, h1, h2, logFatalf] at h
    · rcases h3 : (getClient env config).result with e3 | client
      · simp [main, h1, h2, run_bind_of_error _ _ _ h3] at h
      · rcases h4 : env.slidesNew with _ | e4
        · rcases h5 : env.createNotes with _ | e5
          · simp [main, h1, h2, run_bind_of_ok _ _ _ h3, h4, h5]
          · simp [main, h1, h2, run_bind_of_ok _ _ _ h3, h4, h5, logFatalf] at h
        · simp [main, h1, h2, run_bind_of_ok _ _ _ h3, h4, logFatalf] at h

/-- A run of `main` that fetched `deck`: setup, creation of `notes.txt`, the
fetch, the count line, then the loop. -/
theorem main_with_deck (env : Env) (deck : Presentation)
    (h : Event.presentationsGet presentationId ∈ (main env).trace)
    (hdeck : env.presentationsGet presentationId = .ok deck) :
    ∃ setup, setup.all isSetupEvent = true ∧
      (main env).trace = setup ++ [.create "notes.txt" true,
        .presentationsGet presentationId,
        .print ("The presentation contains " ++ toString deck.Slides.length ++ " slides:\n")] ++
        (slidesLoop env presentationId 0 deck.Slides).trace ∧
      (main env).result = (slidesLoop env presentationId 0 deck.Slides).result := by
  obtain ⟨setup, hs, hm⟩ := main_reached env h
  refine ⟨setup, hs, ?_, ?_⟩
  · rw [hm]
    simp [afterFetch, hdeck, exportLoop]
  · rw [hm]
    simp [afterFetch, hdeck, exportLoop]

/-- The notes file of a run that completes, when every write goes through. -/
theorem main_ok_notes (env : Env) (deck : Presentation)
    (hsucc : (main env).result = .ok ())
    (hdeck : env.presentationsGet presentationId = .ok deck)
    (hw : ∀ i j s, env.writeString i j s = none) :
    notesWritten (main env).trace = deckLines 0 deck.Slides := by
  obtain ⟨setup, hs, htr, hres⟩ := main_with_deck env deck (main_ok_reached env hsucc) hdeck
  rw [hsucc] at hres
  obtain ⟨-, -, h3⟩ := slidesLoop_ok env presentationId deck.Slides 0 hres.symm
  rw [htr, notesWritten_append, notesWritten_append, (setup_projections setup hs).1,
    h3 (fun k _ _ => hw k)]
  simp [notesWritten]

theorem slidesLoop_prefix_ok (env : Env) (pid : String) (pre rest : List Page) (i : Nat)
    (hprev : ∀ j p, pre[j]? = some p → (slideBody env pid (i + j) p).result = .ok ()) :
    slidesLoop env pid i (pre ++ rest) =
      ⟨(slidesLoop env pid i pre).trace ++ (slidesLoop env pid (i + pre.length) rest).trace,
        (slidesLoop env pid (i + pre.length) rest).result⟩ ∧
    (slidesLoop env pid i pre).result = .ok () := by
  induction pre generalizing i with
  | nil => simp [slidesLoop]
  | cons p ps ih =>
    have hp : (slideBody env pid i p).result = .ok () := by
      simpa using hprev 0 p (by simp)
    have hps : ∀ j q, ps[j]? = some q → (slideBody env pid (i + 1 + j) q).result = .ok () := by
      intro j q hq
      have := hprev (j + 1) q (by simpa using hq)
      have hidx : i + 1 + j = i + (j + 1) := by omega
      rw [hidx]
      exact this
    obtain ⟨ih1, ih2⟩ := ih (i + 1) hps
    have hlen : i + 1 + ps.length = i + (ps.length + 1) := by omega
    rw [hlen] at ih1
    constructor
    · rw [List.cons_append, slidesLoop_cons_ok env pid i p _ hp, ih1,
        slidesLoop_cons_ok env pid i p _ hp]
      simp
    · rw [slidesLoop_cons_ok env pid i p _ hp]
      exact ih2

theorem noteLines_eq_map (els : List PageElement) :
    noteLines els = (textRuns els).map fun c => c ++ "\n" := by
  have hrun : ∀ es : List TextElement, runLines es = (runContents es).map fun c => c ++ "\n" := by
    intro es
    induction es with
    | nil => rfl
    | cons e es ih =>
      rcases hr : e.TextRun with _ | run <;> simp [runLines, runContents, hr, ih]
  induction els with
  | nil => rfl
  | cons el els ih =>
    rcases hs : el.Shape with _ | shape
    · simp [noteLines, textRuns, hs, ih]
    · rcases ht : shape.Text with _ | text <;> simp [noteLines, textRuns, hs, ht, ih, hrun]

theorem deckLines_expected (slides : List Page) (notes : List (Option String)) (i : Nat)
    (h : List.Forall₂ HasNote slides notes) :
    concat (deckLines i slides) = expectedNotes i notes := by
  induction h generalizing i with
  | nil => rfl
  | @cons pg note ps ns hn _ ih =>
    obtain ⟨els, h1, h2⟩ := hn
    rw [deckLines, concat_append, ih (i + 1)]
    rcases note with _ | line <;>
      simp [expectedNotes, slideLines, h1, noteLines_eq_map, h2, concat, String.append_assoc]

/-- A slide body whose thumbnail request or image download fails: after the
header and the thumbnail request come only effects of the download, and the
run ends through `log.Fatalf`. -/
theorem slideBody_of_failure (env : Env) (pid : String) (i : Nat) (page : Page)
    (hfail : (∃ e, env.getThumbnail i pid page.ObjectId = .error e) ∨
      (∃ thumb err, env.getThumbnail i pid page.ObjectId = .ok thumb ∧
        (grabImage env i thumb.ContentUrl (imageName i)).result = .ok (some err))) :
    ∃ tr msg, slideBody env pid i page =
        ⟨.print (slideHeader i) ::
          .writeString "notes.txt" (slideHeader i) (env.writeString i 0 (slideHeader i)).isNone ::
          .getThumbnail pid page.ObjectId :: tr, .error (.fatal msg)⟩ ∧
      notesWritten tr = [] ∧ thumbnailCalls tr = [] ∧
      (createdFiles tr = [] ∨ createdFiles tr = [imageName i]) ∧
      (httpGets tr).length ≤ 1 := by
  rcases hfail with ⟨e, ht⟩ | ⟨thumb, err, ht, hg⟩
  · refine ⟨[], "Couldn't create thumbnail: " ++ e.msg, ?_, rfl, rfl, Or.inl rfl, by decide⟩
    simp [slideBody, notesWrite, ht, logFatalf]
  · obtain ⟨p1, p2, p3⟩ := grabImage_projections env i thumb.ContentUrl (imageName i)
    refine ⟨(grabImage env i thumb.ContentUrl (imageName i)).trace,
      "Couldn't get image from " ++ thumb.ContentUrl ++ ": " ++ err.msg, ?_, p1, p2, ?_,
      grabImage_httpGets env i _ _⟩
    · simp [slideBody, notesWrite, ht, run_bind_of_ok _ _ _ hg, logFatalf]
    · rw [p3]
      by_cases hc : env.createImage i (imageName i) = none
      · exact Or.inr (by simp [hc])
      · exact Or.inl (by simp [hc])

/-! ## Loading the token -/

theorem mem_trace_bind {α β : Type} (r : Run α) (k : α → Run β) (ev : Event)
    (h : ev ∈ r.trace) : ev ∈ (r >>= k).trace := by
  rcases hr : r.result with e | a
  · rw [run_bind_of_error r e k hr]
    exact h
  · rw [run_bind_of_ok r a k hr]
    exact List.mem_append_left _ h

theorem scan_mem_getTokenFromWeb (env : Env) (config : Config) :
    Event.scan ∈ (getTokenFromWeb env config).trace := by
  simp [getTokenFromWeb]

/-- After a failed load, `getClient` is the interactive flow, then `saveToken`. -/
theorem getClient_of_load_error (env : Env) (config : Config) (e : LibError)
    (he : (tokenFromFile env "token.json").result = .ok (.error e)) :
    getClient env config = ⟨Event.readFile "token.json" ::
      ((getTokenFromWeb env config >>= fun tok =>
        saveToken env "token.json" tok >>= fun _ => pure (Client.mk config tok)).trace),
      (getTokenFromWeb env config >>= fun tok =>
        saveToken env "token.json" tok >>= fun _ => pure (Client.mk config tok)).result⟩ := by
  rcases h1 : env.openToken with _ | e1
  · rcases h2 : env.decodeToken with e2 | tok
    · simp [getClient, tokenFromFile, h1, h2]
    · simp [tokenFromFile, h1, h2] at he
  · simp [getClient, tokenFromFile, h1]

theorem getClient_of_load_ok (env : Env) (config : Config) (tok : Token)
    (h : (tokenFromFile env "token.json").result = .ok (.ok tok)) :
    getClient env config = ⟨[.readFile "token.json"], .ok ⟨config, tok⟩⟩ := by
  rcases h1 : env.openToken with _ | e1
  · rcases h2 : env.decodeToken with e2 | tok2
    · simp [tokenFromFile, h1, h2] at h
    · simp [tokenFromFile, h1, h2] at h
      simp [getClient, tokenFromFile, h1, h2, h]
  · simp [tokenFromFile, h1] at h

theorem tokenFromFile_result (env : Env) :
    (∃ e, (tokenFromFile env "token.json").result = .ok (.error e)) ∨
    (∃ tok, (tokenFromFile env "token.json").result = .ok (.ok tok)) := by
  rcases h1 : env.openToken with _ | e1
  · rcases h2 : env.decodeToken with e2 | tok2
    · exact Or.inl ⟨e2, by simp [tokenFromFile, h1, h2]⟩
    · exact Or.inr ⟨tok2, by simp [tokenFromFile, h1, h2]⟩
  · exact Or.inl ⟨e1, by simp [tokenFromFile, h1]⟩

theorem create_mem_saveToken (env : Env) (path : String) (tok : Token) :
    ∃ ok, Event.create path ok ∈ (saveToken env path tok).trace := by
  rcases h : env.openTokenForWrite with _ | e
  · exact ⟨true, by simp [saveToken, h]⟩
  · exact ⟨false, by simp [saveToken, h, logFatalf]⟩

theorem create_not_mem_getTokenFromWeb (env : Env) (config : Config) (name : String)
    (ok : Bool) : Event.create name ok ∉ (getTokenFromWeb env config).trace := by
  rcases h3 : env.scan with e3 | code
  · simp [getTokenFromWeb, h3, logFatalf]
  · rcases h4 : env.exchange code with e4 | tok2 <;>
      simp [getTokenFromWeb, h3, h4, logFatalf]

/-- The token file is created exactly when the load fails and the
interactive flow returns a token. -/
theorem getClient_save_iff (env : Env) (config : Config) :
    (∃ ok, Event.create "token.json" ok ∈ (getClient env config).trace) ↔
      ((∃ e, (tokenFromFile env "token.json").result = .ok (.error e)) ∧
        ∃ tok, (getTokenFromWeb env config).result = .ok tok) := by
  rcases tokenFromFile_result env with ⟨e, he⟩ | ⟨tok, h⟩
  · have hg := getClient_of_load_error env config e he
    rcases hw : (getTokenFromWeb env config).result with x | tok
    · rw [run_bind_of_error _ _ _ hw] at hg
      constructor
      · rintro ⟨ok, hmem⟩
        rw [hg] at hmem
        simp at hmem
        exact absurd hmem (create_not_mem_getTokenFromWeb env config _ ok)
      · rintro ⟨-, tok, htok⟩
        simp at htok
    · rw [run_bind_of_ok _ _ _ hw] at hg
      constructor
      · intro _
        exact ⟨⟨e, he⟩, tok, rfl⟩
      · intro _
        obtain ⟨ok, hmem⟩ := create_mem_saveToken env "token.json" tok
        refine ⟨ok, ?_⟩
        rw [hg]
        refine List.mem_cons_of_mem _ (List.mem_append_right _ ?_)
        exact mem_trace_bind _ _ _ hmem
  · constructor
    · rintro ⟨ok, hmem⟩
      rw [getClient_of_load_ok env config tok h] at hmem
      simp at hmem
    · rintro ⟨⟨e, he⟩, -⟩
      rw [h] at he
      simp at he

/-! ## The claims -/

/-- C1 (the code departs from the claim).  On the two-slide deck whose first
notes page holds an element that is not a shape, with every remote call and
download succeeding, the loop writes the header of slide 1 and creates
`image1.jpg`, then stops on the nil dereference `element.Shape.Text`: the
header of slide 2 and `image2.jpg` are never produced. -/
theorem shapeless_deck_stops_after_first_slide :
    deckShapeless.Slides.length = 2 ∧
    notesWritten (main (okEnv deckShapeless)).trace = ["Slide 1:\n"] ∧
    createdFiles (main (okEnv deckShapeless)).trace = ["notes.txt", "image1.jpg"] ∧
    thumbnailCalls (main (okEnv deckShapeless)).trace = ["p1"] ∧
    exitCode (main (okEnv deckShapeless)) = 2 := by
  decide

/-- C2 (as stated, refuted).  For one element with the text runs "Hello, "
and "world" the text written under the header is "Hello, \nworld\n", two
lines, and not "Hello, world\n". -/
theorem hello_world_is_two_lines :
    notesWritten (extractNotes (okEnv deckThree) 0 slideHello).trace =
      ["Hello, \n", "world\n"] ∧
    notesContent (extractNotes (okEnv deckThree) 0 slideHello).trace = "Hello, \nworld\n" ∧
    notesContent (extractNotes (okEnv deckThree) 0 slideHello).trace ≠ "Hello, world\n" := by
  decide

/-- C2 (amended).  For a slide whose slide properties, notes page and element
shapes are all present, the notes step performs exactly one write per text
run, in document order, each being the run's content followed by a newline;
it completes, and when the writes go through the text under the header is
the concatenation of these lines. -/
theorem extractNotes_line_per_run (env : Env) (i : Nat) (page : Page)
    (els : List PageElement) (hels : notesElements page = some els)
    (hshapes : allShapes els = true) :
    (extractNotes env i page).trace =
      writeEvents env i 1 ((textRuns els).map fun c => c ++ "\n") ∧
    (∃ n, (extractNotes env i page).result = .ok n) ∧
    ((∀ j s, env.writeString i j s = none) →
      notesWritten (extractNotes env i page).trace = (textRuns els).map (fun c => c ++ "\n") ∧
      notesContent (extractNotes env i page).trace =
        concat ((textRuns els).map fun c => c ++ "\n")) := by
  have h := extractNotes_of_allShapes env i page els hels hshapes
  rw [noteLines_eq_map] at h
  refine ⟨by rw [h], ⟨_, by rw [h]⟩, ?_⟩
  intro hw
  have hn := notesWritten_writeEvents env i ((textRuns els).map fun c => c ++ "\n") 1 hw
  rw [h]
  exact ⟨hn, by rw [notesContent, hn]⟩

/-- Witness for C2 (amended): the slide with the runs "Hello, " and "world". -/
theorem extractNotes_line_per_run_witness :
    (extractNotes (okEnv deckThree) 0 slideHello).trace =
      writeEvents (okEnv deckThree) 0 1 ["Hello, \n", "world\n"] ∧
    (∃ n, (extractNotes (okEnv deckThree) 0 slideHello).result = .ok n) ∧
    ((∀ j s, (okEnv deckThree).writeString 0 j s = none) →
      notesWritten (extractNotes (okEnv deckThree) 0 slideHello).trace =
        ["Hello, \n", "world\n"] ∧
      notesContent (extractNotes (okEnv deckThree) 0 slideHello).trace =
        concat ["Hello, \n", "world\n"]) :=
  extractNotes_line_per_run (okEnv deckThree) 0 slideHello
    [textShape ["Hello, ", "world"]] rfl rfl

/-- C3 (the code departs from the claim).  The notes step ends in a nil
dereference when the first page element of the notes page has no shape, when
the slide properties are absent, and when the notes page is absent. -/
theorem extractNotes_missing_structure_panics (env : Env) (i : Nat) (id : String)
    (rest : List PageElement) :
    (extractNotes env i ⟨id, some ⟨some ⟨⟨none⟩ :: rest⟩⟩⟩).result = .error .nilDeref ∧
    (extractNotes env i ⟨id, none⟩).result = .error .nilDeref ∧
    (extractNotes env i ⟨id, some ⟨none⟩⟩).result = .error .nilDeref ∧
    exitCode (extractNotes env i ⟨id, some ⟨some ⟨⟨none⟩ :: rest⟩⟩⟩) = 2 := by
  simp [extractNotes, pageElementsLoop, nilPanic, exitCode]

/-- C4.  When creating the file, the GET and the copy all succeed, `grabImage`
returns an error exactly when 0 bytes were copied; with 1 byte or more it
returns nil; the error for the empty download is the value built by
`fmt.Errorf`, while every failure of an earlier step hands back the library
error of that step, which is a different value. -/
theorem grabImage_error_iff_empty (env : Env) (i : Nat) (imageUrl fileName : String)
    (hcreate : env.createImage i fileName = none)
    (hget : env.httpGet i imageUrl = none)
    (hcopy : (env.copy i imageUrl).2 = none) :
    (∃ r, (grabImage env i imageUrl fileName).result = .ok r ∧
      (r ≠ none ↔ (env.copy i imageUrl).1 = 0) ∧
      (1 ≤ (env.copy i imageUrl).1 → r = none) ∧
      ((env.copy i imageUrl).1 = 0 →
        r = some (.errorf ("unexpected empty file from url " ++ imageUrl))) ∧
      (∀ e : LibError, r ≠ some (.lib e))) ∧
    (∀ (env2 : Env) (j : Nat) (url2 file2 : String) (e : LibError),
      (env2.createImage j file2 = some e ∨
       (env2.createImage j file2 = none ∧ env2.httpGet j url2 = some e) ∨
       (env2.createImage j file2 = none ∧ env2.httpGet j url2 = none ∧
         (env2.copy j url2).2 = some e)) →
      (grabImage env2 j url2 file2).result = .ok (some (.lib e)) ∧
      GoError.lib e ≠ .errorf ("unexpected empty file from url " ++ imageUrl)) := by
  constructor
  · rcases hc : env.copy i imageUrl with ⟨size, cerr⟩
    rw [hc] at hcopy
    simp only at hcopy
    subst hcopy
    by_cases hs : size = 0
    · refine ⟨some (.errorf ("unexpected empty file from url " ++ imageUrl)), ?_, ?_, ?_, ?_, ?_⟩
      · simp [grabImage, hcreate, hget, hc, hs]
      · simp [hs]
      · simp [hs]
      · simp
      · simp
    · refine ⟨none, ?_, ?_, ?_, ?_, ?_⟩
      · simp [grabImage, hcreate, hget, hc, hs]
      · simp [hs]
      · simp
      · simp [hs]
      · simp
  · intro env2 j url2 file2 e h
    refine ⟨?_, by simp⟩
    rcases h with h | ⟨h1, h2⟩ | ⟨h1, h2, h3⟩
    · simp [grabImage, h]
    · simp [grabImage, h1, h2]
    · rcases hc : env2.copy j url2 with ⟨size, cerr⟩
      rw [hc] at h3
      simp only at h3
      subst h3
      simp [grabImage, h1, h2, hc]


/-- Witness for C4: a download of one byte. -/
theorem grabImage_error_iff_empty_witness :
    (grabImage (okEnv deckThree) 0 "https://img.example/p1" "image1.jpg").result = .ok none :=
  let h := grabImage_error_iff_empty (okEnv deckThree) 0 "https://img.example/p1" "image1.jpg"
    rfl rfl rfl
  match h.1 with
  | ⟨_, hr, _, h1, _, _⟩ => by rw [hr, h1 (by decide)]

/-- C5 (as stated, refuted).  With no token file and a failing read of the
authorization code, `tokenFromFile` returns an error and the interactive flow
starts, but the run ends through `log.Fatalf` in the flow: no `saveToken`
follows and `token.json` is never created. -/
theorem failed_flow_is_not_followed_by_save :
    (tokenFromFile scanFailEnv "token.json").result =
      .ok (.error ⟨"open token.json: no such file or directory"⟩) ∧
    (getClient scanFailEnv sampleConfig).trace =
      [.readFile "token.json",
       .print ("Go to the following link in your browser then type the authorization code: " ++
         "\nhttps://accounts.example/auth\n"),
       .scan] ∧
    (∀ ok, Event.create "token.json" ok ∉ (getClient scanFailEnv sampleConfig).trace) ∧
    Event.print "Saving credential file to: token.json\n" ∉
      (getClient scanFailEnv sampleConfig).trace ∧
    exitCode (getClient scanFailEnv sampleConfig) = 1 :=
  ⟨rfl, by decide, by decide, by decide, by decide⟩

/-- C5 (amended).  `tokenFromFile` returns an error when the file cannot be
opened and when it cannot be decoded, and the decoded token otherwise.
`getClient` runs the interactive flow exactly when `tokenFromFile` returns an
error, and `saveToken` exactly when, in addition, the flow returns a token:
then its effects are those of the flow followed by those of `saveToken` on
the new token, to which the client is bound; when the flow ends the run,
nothing follows it.  After a successful load there is no further effect and
the client is bound to the loaded token.  A file that cannot be opened and a
file that cannot be decoded give the same run, which starts the flow and,
when the flow returns a token, saves it. -/
theorem getClient_flow_and_save (env : Env) (config : Config) :
    (∀ e, env.openToken = some e →
      (tokenFromFile env "token.json").result = .ok (.error e)) ∧
    (∀ e, env.openToken = none → env.decodeToken = .error e →
      (tokenFromFile env "token.json").result = .ok (.error e)) ∧
    (∀ tok, env.openToken = none → env.decodeToken = .ok tok →
      (tokenFromFile env "token.json").result = .ok (.ok tok)) ∧
    ((∃ e, (tokenFromFile env "token.json").result = .ok (.error e)) ↔
      Event.scan ∈ (getClient env config).trace) ∧
    ((∃ ok, Event.create "token.json" ok ∈ (getClient env config).trace) ↔
      ((∃ e, (tokenFromFile env "token.json").result = .ok (.error e)) ∧
        ∃ tok, (getTokenFromWeb env config).result = .ok tok)) ∧
    (∀ e, (tokenFromFile env "token.json").result = .ok (.error e) →
      (∀ tok, (getTokenFromWeb env config).result = .ok tok →
        (getClient env config).trace = Event.readFile "token.json" ::
          ((getTokenFromWeb env config).trace ++ (saveToken env "token.json" tok).trace) ∧
        ((saveToken env "token.json" tok).result = .ok () →
          (getClient env config).result = .ok ⟨config, tok⟩)) ∧
      (∀ x, (getTokenFromWeb env config).result = .error x →
        getClient env config =
          ⟨Event.readFile "token.json" :: (getTokenFromWeb env config).trace, .error x⟩)) ∧
    (∀ tok, (tokenFromFile env "token.json").result = .ok (.ok tok) →
      getClient env config = ⟨[.readFile "token.json"], .ok ⟨config, tok⟩⟩) ∧
    (∀ missing corrupt : LibError,
      getClient { env with openToken := some missing } config =
        getClient { env with openToken := none, decodeToken := .error corrupt } config ∧
      Event.scan ∈ (getClient { env with openToken := some missing } config).trace ∧
      Event.scan ∈
        (getClient { env with openToken := none, decodeToken := .error corrupt } config).trace ∧
      (∀ tok, (getTokenFromWeb env config).result = .ok tok →
        (∃ ok, Event.create "token.json" ok ∈
          (getClient { env with openToken := some missing } config).trace) ∧
        (∃ ok, Event.create "token.json" ok ∈
          (getClient { env with openToken := none, decodeToken := .error corrupt }
            config).trace))) := by
  have hflow : ∀ e, (tokenFromFile env "token.json").result = .ok (.error e) →
      (∀ tok, (getTokenFromWeb env config).result = .ok tok →
        (getClient env config).trace = Event.readFile "token.json" ::
          ((getTokenFromWeb env config).trace ++ (saveToken env "token.json" tok).trace) ∧
        ((saveToken env "token.json" tok).result = .ok () →
          (getClient env config).result = .ok ⟨config, tok⟩)) ∧
      (∀ x, (getTokenFromWeb env config).result = .error x →
        getClient env config =
          ⟨Event.readFile "token.json" :: (getTokenFromWeb env config).trace, .error x⟩) := by
    intro e he
    have hg := getClient_of_load_error env config e he
    constructor
    · intro tok htok
      rw [hg, run_bind_of_ok _ _ _ htok]
      rcases hs : (saveToken env "token.json" tok).result with x | u
      · simp [run_bind_of_error _ _ _ hs]
      · simp [run_bind_of_ok _ _ _ hs]
    · intro x hx
      rw [hg, run_bind_of_error _ _ _ hx]
  refine ⟨?_, ?_, ?_, ?_, ?_, hflow, ?_, ?_⟩
  · intro e h
    simp [tokenFromFile, h]
  · intro e h1 h2
    simp [tokenFromFile, h1, h2]
  · intro tok h1 h2
    simp [tokenFromFile, h1, h2]
  · constructor
    · rintro ⟨e, he⟩
      rw [getClient_of_load_error env config e he]
      exact List.mem_cons_of_mem _ (mem_trace_bind _ _ _ (scan_mem_getTokenFromWeb env config))
    · intro hmem
      rcases tokenFromFile_result env with h | ⟨tok, h⟩
      · exact h
      · rw [getClient_of_load_ok env config tok h] at hmem
        simp at hmem
  · exact getClient_save_iff env config
  · intro tok htok
    exact getClient_of_load_ok env config tok htok
  · intro missing corrupt
    refine ⟨by simp [getClient, tokenFromFile, getTokenFromWeb, saveToken], ?_, ?_, ?_⟩
    · rw [getClient_of_load_error _ config missing (by simp [tokenFromFile])]
      exact List.mem_cons_of_mem _ (mem_trace_bind _ _ _ (scan_mem_getTokenFromWeb _ config))
    · rw [getClient_of_load_error _ config corrupt (by simp [tokenFromFile])]
      exact List.mem_cons_of_mem _ (mem_trace_bind _ _ _ (scan_mem_getTokenFromWeb _ config))
    · intro tok htok
      constructor
      · exact (getClient_save_iff _ config).mpr
          ⟨⟨missing, by simp [tokenFromFile]⟩, tok, htok⟩
      · exact (getClient_save_iff _ config).mpr
          ⟨⟨corrupt, by simp [tokenFromFile]⟩, tok, htok⟩

/-- C6 (as stated, refuted).  For a redirect target received as
"/a%2Fb%3Dc/img.jpg" the handler sets `Opaque` to the decoded path
"/a/b=c/img.jpg": the pre-escaped form, kept in `RawPath`, is not what the
handler puts there. -/
theorem redirect_opaque_is_decoded_path :
    redirectRequest.URL.RawPath = "/a%2Fb%3Dc/img.jpg" ∧
    (checkRedirect redirectRequest []).1.URL.Opaque = "/a/b=c/img.jpg" ∧
    (checkRedirect redirectRequest []).1.URL.Opaque ≠ redirectRequest.URL.RawPath := by
  decide

/-- C6 (amended).  For every redirect request and every chain of earlier
requests, the redirect handler sets the URL field `Opaque` to the field
`Path`, the decoded path; it never reads `RawPath`, so `Opaque` is the
pre-escaped form only when `Path` and `RawPath` are the same; it leaves every
other field of the URL and the rest of the request as they were, and returns
no error. -/
theorem checkRedirect_sets_opaque_to_path (r : Request) (via : List Request) :
    (checkRedirect r via).1.URL.Opaque = r.URL.Path ∧
    ((checkRedirect r via).1.URL.Opaque = r.URL.RawPath ↔ r.URL.Path = r.URL.RawPath) ∧
    (∀ raw : String,
      (checkRedirect { r with URL := { r.URL with RawPath := raw } } via).1.URL.Opaque =
        (checkRedirect r via).1.URL.Opaque) ∧
    (checkRedirect r via).1.URL.Scheme = r.URL.Scheme ∧
    (checkRedirect r via).1.URL.User = r.URL.User ∧
    (checkRedirect r via).1.URL.Host = r.URL.Host ∧
    (checkRedirect r via).1.URL.Path = r.URL.Path ∧
    (checkRedirect r via).1.URL.RawPath = r.URL.RawPath ∧
    (checkRedirect r via).1.URL.OmitHost = r.URL.OmitHost ∧
    (checkRedirect r via).1.URL.ForceQuery = r.URL.ForceQuery ∧
    (checkRedirect r via).1.URL.RawQuery = r.URL.RawQuery ∧
    (checkRedirect r via).1.URL.Fragment = r.URL.Fragment ∧
    (checkRedirect r via).1.URL.RawFragment = r.URL.RawFragment ∧
    (checkRedirect r via).1.Method = r.Method ∧
    (checkRedirect r via).2 = none := by
  simp [checkRedirect]

/-- C7 (as stated, refuted).  With no cached token, a failing token encoding
and failing notes writes, the run goes on after each failure: the deck is
fetched after the failed encoding, the thumbnail is requested and the image
is downloaded after the failed header write, and the run ends normally. -/
theorem failed_writes_do_not_abort :
    (main writeFailEnv).trace =
      [.readFile "credentials.json", .readFile "token.json",
       .print ("Go to the following link in your browser then type the authorization code: " ++
         "\nhttps://accounts.example/auth\n"),
       .scan, .exchange "code",
       .print "Saving credential file to: token.json\n",
       .create "token.json" true,
       .encode "token.json" ⟨"fresh", "Bearer", "refresh", 0⟩ false,
       .create "notes.txt" true,
       .presentationsGet presentationId,
       .print "The presentation contains 1 slides:\n",
       .print "Slide 1:\n",
       .writeString "notes.txt" "Slide 1:\n" false,
       .getThumbnail presentationId "p1",
       .create "image1.jpg" true,
       .httpGet "https://img.example/p1",
       .copy "image1.jpg" 1 true] ∧
    exitCode (main writeFailEnv) = 0 := by
  decide

/-- C7 (amended).  A failed creation of an output file (`token.json`,
`notes.txt`, an image file) or a failed copy into an image file is the last
effect of the run, which then ends through `log.Fatalf` with exit status 1;
the outcomes of the notes writes and of the token encoding are never looked
at: with any other outcomes for them the run performs the same effects and
ends the same way. -/
theorem failed_create_or_copy_aborts (env : Env) (pre post : List Event) (ev : Event)
    (htr : (main env).trace = pre ++ ev :: post) (hev : isFailedOutput ev = true) :
    post = [] ∧ exitCode (main env) = 1 ∧
    (∃ msg, (main env).result = .error (.fatal msg)) ∧
    (∀ w c, (main (env.withWrites w c)).trace.map forgetWrites =
        (main env).trace.map forgetWrites ∧
      (main (env.withWrites w c)).result = (main env).result) := by
  have hforget : ∀ w c, (main (env.withWrites w c)).trace.map forgetWrites =
        (main env).trace.map forgetWrites ∧
      (main (env.withWrites w c)).result = (main env).result := by
    intro w c
    have h := main_forget env w c
    simp only [Run.forget, Run.mk.injEq] at h
    exact h
  rcases main_stops env with h | ⟨pre2, ev2, msg, h1, h2, h3, h4⟩
  · rw [htr, noFailedOutput_append, noFailedOutput_cons, hev] at h
    simp at h
  · have hpost : post = [] := by
      rcases List.eq_nil_or_concat post with hp | ⟨post0, l, hp⟩
      · exact hp
      · exfalso
        rw [htr, hp] at h1
        have h5 : (pre ++ ev :: post0) ++ [l] = pre2 ++ [ev2] := by simpa using h1
        have h6 := List.append_inj_left' h5 rfl
        rw [← h6, noFailedOutput_append, noFailedOutput_cons, hev] at h2
        simp at h2
    refine ⟨hpost, ?_, ⟨msg, h4⟩, hforget⟩
    simp [exitCode, h4]

/-- Witness for C7 (amended): `notes.txt` cannot be created. -/
theorem failed_create_or_copy_aborts_witness :
    ([] : List Event) = [] ∧ exitCode (main notesCreateFailEnv) = 1 ∧
    (∃ msg, (main notesCreateFailEnv).result = .error (.fatal msg)) ∧
    (∀ w c, (main (notesCreateFailEnv.withWrites w c)).trace.map forgetWrites =
        (main notesCreateFailEnv).trace.map forgetWrites ∧
      (main (notesCreateFailEnv.withWrites w c)).result = (main notesCreateFailEnv).result) :=
  failed_create_or_copy_aborts notesCreateFailEnv
    [.readFile "credentials.json", .readFile "token.json"] []
    (.create "notes.txt" false) (by decide) (by decide)

/-- C8.  If the deck fetch is issued and fails, the run ends through
`log.Fatalf` with exit status 1; the fetch is its last effect; `notes.txt`
was created and no write to it was attempted, so it is empty; no thumbnail
request and no image download was made, and no file other than `token.json`
and `notes.txt` was created. -/
theorem deck_fetch_failure_aborts (env : Env) (e : LibError)
    (hreach : Event.presentationsGet presentationId ∈ (main env).trace)
    (hfail : env.presentationsGet presentationId = .error e) :
    exitCode (main env) = 1 ∧
    (main env).result =
      .error (.fatal ("Unable to retrieve data from presentation: " ++ e.msg)) ∧
    (main env).trace.getLast? = some (.presentationsGet presentationId) ∧
    Event.create "notes.txt" true ∈ (main env).trace ∧
    (∀ name s ok, Event.writeString name s ok ∉ (main env).trace) ∧
    notesContent (main env).trace = "" ∧
    thumbnailCalls (main env).trace = [] ∧
    httpGets (main env).trace = [] ∧
    (∀ f ∈ createdFiles (main env).trace, f = "token.json" ∨ f = "notes.txt") := by
  obtain ⟨setup, hs, hm⟩ := main_reached env hreach
  obtain ⟨p1, p2, p3, p4, p5⟩ := setup_projections setup hs
  have htr : (main env).trace =
      setup ++ [.create "notes.txt" true, .presentationsGet presentationId] := by
    rw [hm]
    simp [afterFetch, hfail, logFatalf]
  have hres : (main env).result =
      .error (.fatal ("Unable to retrieve data from presentation: " ++ e.msg)) := by
    rw [hm]
    simp [afterFetch, hfail, logFatalf]
  refine ⟨by simp [exitCode, hres], hres, ?_, ?_, ?_, ?_, ?_, ?_, ?_⟩
  · rw [htr]
    simp
  · rw [htr]
    simp
  · intro name s ok hmem
    rw [htr] at hmem
    simp at hmem
    exact p5 name s ok hmem
  · rw [htr, notesContent, notesWritten_append, p1]
    simp [notesWritten, concat]
  · rw [htr, thumbnailCalls_append, p2]
    simp [thumbnailCalls]
  · rw [htr]
    simp only [httpGets] at p3 ⊢
    simp [p3]
  · intro f hf
    rw [htr, createdFiles_append] at hf
    rcases List.mem_append.mp hf with h | h
    · exact Or.inl (p4 f h)
    · simp [createdFiles] at h
      exact Or.inr h

/-- Witness for C8: the service refuses the deck fetch. -/
theorem deck_fetch_failure_aborts_witness :
    exitCode (main fetchFailEnv) = 1 ∧
    notesContent (main fetchFailEnv).trace = "" ∧
    thumbnailCalls (main fetchFailEnv).trace = [] :=
  let h := deck_fetch_failure_aborts fetchFailEnv
    ⟨"googleapi: Error 403: The caller does not have permission"⟩ (by decide) rfl
  ⟨h.1, h.2.2.2.2.2.1, h.2.2.2.2.2.2.1⟩

/-- C9 (as stated, refuted).  On the deck of one slide whose notes are the
single line "Hello, world", held in the two text runs "Hello, " and "world",
the run completes and leaves "Slide 1:\nHello, \nworld\n" in `notes.txt`,
not the header followed by the line and a newline. -/
theorem one_line_in_two_runs_is_two_lines :
    textRuns [textShape ["Hello, ", "world"]] = ["Hello, ", "world"] ∧
    concat (textRuns [textShape ["Hello, ", "world"]]) = "Hello, world" ∧
    exitCode (main (okEnv deckHello)) = 0 ∧
    notesContent (main (okEnv deckHello)).trace = "Slide 1:\nHello, \nworld\n" ∧
    notesContent (main (okEnv deckHello)).trace ≠ "Slide 1:\nHello, world\n" := by
  decide

/-- C9 (amended).  On a deck each of whose slides has either no text run on
its notes page or exactly one, whose content is that slide's line, a run that
completes and whose writes go through leaves `notes.txt` equal to the
concatenation, per slide in order, of the header "Slide k:" and a newline,
followed by the line and a newline if the slide has one. -/
theorem notes_of_successful_run (env : Env) (deck : Presentation)
    (notes : List (Option String))
    (hsucc : (main env).result = .ok ())
    (hdeck : env.presentationsGet presentationId = .ok deck)
    (hw : ∀ i j s, env.writeString i j s = none)
    (hnotes : List.Forall₂ HasNote deck.Slides notes) :
    notesContent (main env).trace = expectedNotes 0 notes := by
  rw [notesContent, main_ok_notes env deck hsucc hdeck hw]
  exact deckLines_expected deck.Slides notes 0 hnotes

/-- Witness for C9 (amended): the three slides with notes "Note A", "Note B"
(one text run each) and none. -/
theorem notes_of_successful_run_witness :
    notesContent (main (okEnv deckThree)).trace =
      "Slide 1:\nNote A\nSlide 2:\nNote B\nSlide 3:\n" :=
  (notes_of_successful_run (okEnv deckThree) deckThree [some "Note A", some "Note B", none]
    rfl rfl (fun _ _ _ => rfl)
    (.cons ⟨_, rfl, rfl⟩ (.cons ⟨_, rfl, rfl⟩ (.cons ⟨_, rfl, rfl⟩ .nil)))).trans (by decide)

/-- C10.  Let the deck be fetched, let every step of the slides before slide
`k` succeed (`pre` are these `k-1` slides), let the notes writes go through,
and let the thumbnail request or the image download of slide `k` fail.  Then
the run ends through `log.Fatalf` with exit status 1; `notes.txt` holds the
complete blocks of the slides before `k` followed by the header of slide `k`
and nothing else, which is a prefix of what any completed run on the same
deck leaves; the image files created are those of the slides before `k` and
possibly that of slide `k`; thumbnails were requested for the slides up to
`k` only, and at most `k` image downloads were started. -/
theorem abort_at_slide (env : Env) (deck : Presentation) (pre post : List Page) (page : Page)
    (hreach : Event.presentationsGet presentationId ∈ (main env).trace)
    (hdeck : env.presentationsGet presentationId = .ok deck)
    (hslides : deck.Slides = pre ++ page :: post)
    (hprev : ∀ j p, pre[j]? = some p → (slideBody env presentationId j p).result = .ok ())
    (hw : ∀ i, i ≤ pre.length → ∀ j s, env.writeString i j s = none)
    (hfail : (∃ e, env.getThumbnail pre.length presentationId page.ObjectId = .error e) ∨
      (∃ thumb err, env.getThumbnail pre.length presentationId page.ObjectId = .ok thumb ∧
        (grabImage env pre.length thumb.ContentUrl (imageName pre.length)).result =
          .ok (some err))) :
    exitCode (main env) = 1 ∧
    notesContent (main env).trace = concat (deckLines 0 pre) ++ slideHeader pre.length ∧
    (∀ env2, env2.presentationsGet presentationId = .ok deck →
      (main env2).result = .ok () → (∀ i j s, env2.writeString i j s = none) →
      ∃ rest, notesContent (main env2).trace = notesContent (main env).trace ++ rest) ∧
    (∃ setupFiles last, createdFiles (main env).trace =
        setupFiles ++ "notes.txt" :: ((List.range pre.length).map imageName ++ last) ∧
      (∀ f ∈ setupFiles, f = "token.json") ∧ (last = [] ∨ last = [imageName pre.length])) ∧
    thumbnailCalls (main env).trace = (pre ++ [page]).map Page.ObjectId ∧
    (httpGets (main env).trace).length ≤ pre.length + 1 := by
  obtain ⟨setup, hs, htr, hres⟩ := main_with_deck env deck hreach hdeck
  obtain ⟨s1, s2, s3, s4, -⟩ := setup_projections setup hs
  obtain ⟨hloop, hpre⟩ := slidesLoop_prefix_ok env presentationId pre (page :: post) 0
    (fun j p hj => by simpa using hprev j p hj)
  obtain ⟨tr, msg, hbody, b1, b2, b3, b4⟩ := slideBody_of_failure env presentationId
    pre.length page hfail
  have l4 := slidesLoop_ok_httpGets env presentationId pre 0 hpre
  have hberr : (slideBody env presentationId pre.length page).result = .error (.fatal msg) := by
    rw [hbody]
  have hrest := slidesLoop_cons_error env presentationId pre.length page post _ hberr
  simp only [Nat.zero_add] at hloop
  rw [hrest, hbody] at hloop
  obtain ⟨l1, l2, l3⟩ := slidesLoop_ok env presentationId pre 0 hpre
  have l3w := l3 (fun k _ hk => hw k (by omega))
  rw [← List.range_eq_range'] at l2
  rw [hslides, hloop] at htr hres
  simp only at htr hres
  have hnotes : notesWritten (main env).trace = deckLines 0 pre ++ [slideHeader pre.length] := by
    rw [htr]
    simp only [notesWritten_append, s1, l3w]
    simp [notesWritten, hw pre.length (Nat.le_refl _)]
    simpa [notesWritten] using b1
  have hcontent : notesContent (main env).trace =
      concat (deckLines 0 pre) ++ slideHeader pre.length := by
    rw [notesContent, hnotes, concat_append]
    simp [concat]
  refine ⟨by simp [exitCode, hres], hcontent, ?_, ?_, ?_, ?_⟩
  · intro env2 hdeck2 hsucc2 hw2
    have h2 := main_ok_notes env2 deck hsucc2 hdeck2 hw2
    rw [hslides, deckLines_append] at h2
    refine ⟨concat (noteLines ((notesElements page).getD []) ++
      deckLines (0 + pre.length + 1) post), ?_⟩
    rw [notesContent, h2, hcontent, concat_append]
    simp [deckLines, slideLines, concat, concat_append, String.append_assoc]
  · refine ⟨createdFiles setup, createdFiles tr, ?_, s4, b3⟩
    rw [htr]
    simp only [createdFiles_append, l2]
    simp [createdFiles]
  · rw [htr]
    simp only [thumbnailCalls_append, s2, l1]
    simp [thumbnailCalls]
    simpa [thumbnailCalls] using b2
  · rw [htr]
    simp only [httpGets_append, s3, List.length_append, l4]
    have h5 : httpGets (Event.print (slideHeader pre.length) ::
        Event.writeString "notes.txt" (slideHeader pre.length)
          (env.writeString pre.length 0 (slideHeader pre.length)).isNone ::
        Event.getThumbnail presentationId page.ObjectId :: tr) = httpGets tr := by
      simp [httpGets]
    rw [h5]
    simp [httpGets]
    exact b4

/-- Witness for C10: the thumbnail request of the second of three slides fails. -/
theorem abort_at_slide_witness :
    exitCode (main thumbFailEnv) = 1 ∧
    notesContent (main thumbFailEnv).trace = "Slide 1:\nNote A\nSlide 2:\n" ∧
    thumbnailCalls (main thumbFailEnv).trace = ["p1", "p2"] :=
  let h := abort_at_slide thumbFailEnv deckThree [slideWith "p1" [textShape ["Note A"]]]
    [slideWith "p3" []] (slideWith "p2" [textShape ["Note B"]])
    (by decide) rfl rfl
    (fun j p hj => match j, hj with
      | 0, hj => by
        have hp : p = slideWith "p1" [textShape ["Note A"]] := by simpa using hj.symm
        rw [hp]
        rfl
      | j + 1, hj => by simp at hj)
    (fun _ _ _ _ => rfl)
    (Or.inl ⟨⟨"googleapi: Error 500"⟩, rfl⟩)
  ⟨h.1, h.2.1.trans (by decide), h.2.2.2.2.1⟩

end SlidesDownloader
